import Mathlib

/-!
Verification of the expense-agent conversational loop.

The development shallowly embeds the two authoritative modules of the
repository:

* services/aiService.js : the request orchestrator processUserRequest,
  the prompt builder createMasterPrompt, the response-cleaning step
  (cleanedJsonString) and the zod tool-call validation (ToolSchema).
* screens/AgentScreen.js : the agent loop handleUserSubmit with its
  tool dispatch table toolMapping and its step bound MAX_STEPS.

The language-model backend, the JSON.parse builtin and the bound tool
implementations are external effects; they are modelled as explicit
oracle parameters, so every theorem quantifies over all of their
behaviours.  A JavaScript exception thrown to the caller is modelled by
an Option-valued result (none = the function threw).
-/

/-! ## JSON values (result of the JSON.parse builtin)

Number literals are modelled as integers; no claim in scope depends on
non-integral numerics, only on the typeof distinction that the zod
schemas test. -/

inductive Json where
  | null : Json
  | bool (b : Bool) : Json
  | num (n : Int) : Json
  | str (s : String) : Json
  | arr (xs : List Json) : Json
  | obj (fields : List (String × Json)) : Json

/-! ## Validated tool calls

Mirrors the zod discriminated union ToolSchema of services/aiService.js
(lines 15..86): one constructor per member schema, carrying exactly the
parameter fields of that schema. -/

inductive Period where
  | today
  | thisWeek
  | thisMonth
  | all
deriving DecidableEq

def Period.jsString : Period → String
  | .today => "today"
  | .thisWeek => "this week"
  | .thisMonth => "this month"
  | .all => "all"

inductive ToolCall where
  | addExpense (amount : Int) (category : String) (note : Option String)
  | getSpendingHistory (period : Period)
  | listExpenses (query : String)
  | updateExpense (id : String) (uAmount : Option Int) (uCategory : Option String)
      (uNote : Option String)
  | deleteExpenseById (id : String)
  | deleteLastExpense
  | answerUser (answer : String)
  | clarify (question : String)
deriving DecidableEq

/-- The tool_name discriminator of a validated tool call. -/
def ToolCall.name : ToolCall → String
  | .addExpense _ _ _ => "addExpense"
  | .getSpendingHistory _ => "getSpendingHistory"
  | .listExpenses _ => "listExpenses"
  | .updateExpense _ _ _ _ => "updateExpense"
  | .deleteExpenseById _ => "deleteExpenseById"
  | .deleteLastExpense => "deleteLastExpense"
  | .answerUser _ => "answerUser"
  | .clarify _ => "clarify"

/-- The eight registered tool names of the discriminated union. -/
def toolNames : List String :=
  ["addExpense", "getSpendingHistory", "listExpenses", "updateExpense",
   "deleteExpenseById", "deleteLastExpense", "answerUser", "clarify"]

/-! ## Conversation turns

AgentScreen.js builds turns with role user / ai / tool / system.  The
content of a system turn produced by the terminal branch of the loop is
command.parameters.question || command.parameters.answer, which is the
JavaScript value undefined when a clarify question is the empty string;
system content is therefore an Option String (none = undefined). -/

inductive Turn where
  | user (content : String)
  | ai (content : ToolCall)
  | tool (content : String)
  | system (content : Option String)
deriving DecidableEq

inductive Role where
  | user
  | ai
  | tool
  | system
deriving DecidableEq

def Turn.role : Turn → Role
  | .user _ => Role.user
  | .ai _ => Role.ai
  | .tool _ => Role.tool
  | .system _ => Role.system

/-! ## The response-cleaning step (aiService.js lines 157..162)

    const cleanedJsonString = aiResponseText
      .replace(/three-backtick json fence opener, optional newline/, "")
      .replace(/trailing three-backtick fence/, "")
      .replace(/lazy prefix up to the first open brace/, open brace)
      .replace(/last close brace and the non-brace tail/, close brace)
      .trim();

Each JavaScript regex replace is translated to an explicit list
transformation with the exact same semantics (first leftmost match,
dot does not cross newlines, the dollar anchor is end of string). -/

def fenceOpen : List Char := "```json".data

/-- replace of the fence-opener pattern: delete the leftmost occurrence of
the seven characters of the opener together with one following newline
when present. -/
def stripFenceOpen : List Char → List Char
  | [] => []
  | c :: rest =>
    if fenceOpen.isPrefixOf (c :: rest) then
      match (c :: rest).drop 7 with
      | '\n' :: r => r
      | r => r
    else c :: stripFenceOpen rest

/-- replace of the trailing-fence pattern: the dollar anchor means the
three backticks are deleted only when they end the string. -/
def stripFenceClose (s : List Char) : List Char :=
  if "```".data.isSuffixOf s then s.take (s.length - 3) else s

/-- The ECMAScript LineTerminator set, which the dot of a regex never
matches: LF, CR, LINE SEPARATOR and PARAGRAPH SEPARATOR. -/
def jsLineTerminator (c : Char) : Bool :=
  c = '\n' || c = '\r' || c = '\u2028' || c = '\u2029'

/-- Helper for the lazy prefix pattern: a match exists exactly when an
open brace occurs before any line terminator; the match spans up to and
including that first brace and is replaced by a single open brace. -/
def braceStart : List Char → Option (List Char)
  | [] => none
  | c :: r =>
    if c = '\x7b' then some (c :: r)
    else if jsLineTerminator c then none
    else braceStart r

def stripBeforeBrace (s : List Char) : List Char :=
  (braceStart s).getD s

/-- replace of the close-brace tail pattern: when the string contains a
close brace, everything after the last one is deleted. -/
def stripAfterBrace (s : List Char) : List Char :=
  let r := s.reverse.dropWhile (fun c => c ≠ '\x7d')
  if r.isEmpty then s else r.reverse

/-- The whitespace class of the JavaScript String.prototype.trim. -/
def jsWhitespace (c : Char) : Bool :=
  c = ' ' || c = '\t' || c = '\n' || c = '\r' || c = '\x0b' || c = '\x0c'

def jsTrim (s : List Char) : List Char :=
  ((s.dropWhile jsWhitespace).reverse.dropWhile jsWhitespace).reverse

def jsTrimS (s : String) : String :=
  String.mk (jsTrim s.data)

/-- The full cleaning pipeline applied to the raw model text
(aiService.js lines 157..162). -/
def cleanedJsonString (aiResponseText : String) : String :=
  String.mk
    (jsTrim (stripAfterBrace (stripBeforeBrace
      (stripFenceClose (stripFenceOpen aiResponseText.data)))))

/-! ## The prompt builder createMasterPrompt (aiService.js lines 91..132)

User and tool turns are rendered through content.replace of every double
quote by a backslash-quote pair; ai turns through JSON.stringify with
two-space indentation.  The else branch of the role dispatch covers
every role other than user and ai, so system turns are rendered with the
same TOOL_RESULT tag as tool turns; on a system turn whose content is
undefined the replace call throws (modelled by none). -/

/-- content.replace of each double quote by backslash-quote (the user and
tool-result branches of the history formatter). -/
def escQChar (c : Char) : List Char :=
  if c = '"' then ['\\', '"'] else [c]

def escQ (s : List Char) : List Char :=
  s.flatMap escQChar

def escapeQuotes (s : String) : String :=
  String.mk (escQ s.data)

/-- The string-escaping of the JSON.stringify builtin: double quote,
backslash, and control characters are escaped; everything else is kept. -/
def jsonEscapeChar (c : Char) : List Char :=
  if c = '"' then ['\\', '"']
  else if c = '\\' then ['\\', '\\']
  else if c = '\n' then ['\\', 'n']
  else if c = '\r' then ['\\', 'r']
  else if c = '\t' then ['\\', 't']
  else if c = '\x08' then ['\\', 'b']
  else if c = '\x0c' then ['\\', 'f']
  else if c.toNat < 32 then
    ['\\', 'u', '0', '0', Nat.digitChar (c.toNat / 16), Nat.digitChar (c.toNat % 16)]
  else [c]

def jsonEscape (s : List Char) : List Char :=
  s.flatMap jsonEscapeChar

/-- A JSON string literal: quote, escaped content, quote. -/
def qesc (s : String) : String :=
  "\"" ++ String.mk (jsonEscape s.data) ++ "\""

/-- Decimal digits of a natural number, most significant first (the
decimal notation JSON.stringify uses for integral numbers). -/
def natDigits (n : Nat) : List Char :=
  if n < 10 then [Nat.digitChar n]
  else natDigits (n / 10) ++ [Nat.digitChar (n % 10)]
termination_by n
decreasing_by exact Nat.div_lt_self (by omega) (by omega)

/-- Decimal notation of an integer as JSON.stringify prints it. -/
def intRepr (i : Int) : String :=
  if i < 0 then String.mk ('-' :: natDigits i.natAbs)
  else String.mk (natDigits i.natAbs)

/-- JSON.stringify(value, null, 2) of the updates object of an
updateExpense call: the present entries in schema key order, separated
by comma-newline, at nesting depth three, or the inline empty object
(one case per subset of present optional fields). -/
def updatesJson (ua : Option Int) (uc un : Option String) : String :=
  match ua, uc, un with
  | none, none, none => "\x7b\x7d"
  | some a, none, none =>
    "\x7b\n      \"amount\": " ++ intRepr a ++ "\n    \x7d"
  | none, some c, none =>
    "\x7b\n      \"category\": " ++ qesc c ++ "\n    \x7d"
  | none, none, some n =>
    "\x7b\n      \"note\": " ++ qesc n ++ "\n    \x7d"
  | some a, some c, none =>
    "\x7b\n      \"amount\": " ++ intRepr a ++
    ",\n      \"category\": " ++ qesc c ++ "\n    \x7d"
  | some a, none, some n =>
    "\x7b\n      \"amount\": " ++ intRepr a ++
    ",\n      \"note\": " ++ qesc n ++ "\n    \x7d"
  | none, some c, some n =>
    "\x7b\n      \"category\": " ++ qesc c ++
    ",\n      \"note\": " ++ qesc n ++ "\n    \x7d"
  | some a, some c, some n =>
    "\x7b\n      \"amount\": " ++ intRepr a ++
    ",\n      \"category\": " ++ qesc c ++
    ",\n      \"note\": " ++ qesc n ++ "\n    \x7d"

/-- JSON.stringify(value, null, 2) of the parameters object of a
validated tool call (zod output keys come in schema order). -/
def paramsJson : ToolCall → String
  | .addExpense amount category note =>
    "\x7b\n    \"amount\": " ++ intRepr amount ++
    ",\n    \"category\": " ++ qesc category ++
    (match note with
      | none => ""
      | some n => ",\n    \"note\": " ++ qesc n) ++ "\n  \x7d"
  | .getSpendingHistory period =>
    "\x7b\n    \"period\": " ++ qesc period.jsString ++ "\n  \x7d"
  | .listExpenses query =>
    "\x7b\n    \"query\": " ++ qesc query ++ "\n  \x7d"
  | .updateExpense id ua uc un =>
    "\x7b\n    \"id\": " ++ qesc id ++
    ",\n    \"updates\": " ++ updatesJson ua uc un ++ "\n  \x7d"
  | .deleteExpenseById id =>
    "\x7b\n    \"id\": " ++ qesc id ++ "\n  \x7d"
  | .deleteLastExpense => "\x7b\x7d"
  | .answerUser answer =>
    "\x7b\n    \"answer\": " ++ qesc answer ++ "\n  \x7d"
  | .clarify question =>
    "\x7b\n    \"question\": " ++ qesc question ++ "\n  \x7d"

/-- JSON.stringify(command, null, 2) of a validated tool call. -/
def stringifyToolCall (c : ToolCall) : String :=
  "\x7b\n  \"tool_name\": " ++ qesc c.name ++
  ",\n  \"parameters\": " ++ paramsJson c ++ "\n\x7d"

/-- One turn of the history formatter of createMasterPrompt.  none means
the branch threw (content.replace on an undefined system content). -/
def renderTurn : Turn → Option String
  | .user c => some ("User: \"" ++ escapeQuotes c ++ "\"")
  | .ai c => some ("Your Response:\n" ++ stringifyToolCall c)
  | .tool c => some ("TOOL_RESULT: \"" ++ escapeQuotes c ++ "\"")
  | .system (some c) => some ("TOOL_RESULT: \"" ++ escapeQuotes c ++ "\"")
  | .system none => none

/-- The template text of createMasterPrompt before the spliced history. -/
def promptHeader : String :=
  "You are an expert AI financial assistant designed solely to output a single valid JSON object per interaction. You do not speak in natural language unless using the answerUser or clarify tool.\n\nRULES (No Exceptions):\n1. Output exactly one JSON object, with no commentary or markdown.\n2. Structure must be: \x7b \"tool_name\": string, \"parameters\": \x7b ... \x7d \x7d.\n3. For destructive or ambiguous actions, use clarify first.\n4. Only use these tools: addExpense, getSpendingHistory, listExpenses, updateExpense, deleteExpenseById, deleteLastExpense, answerUser, clarify.\n5. No extra text. No code blocks.\n\nAVAILABLE TOOLS:\n1. addExpense — Params: \x7b amount: number, category: string, note?: string \x7d\n2. getSpendingHistory — Params: \x7b period: \"today\"|\"this week\"|\"this month\"|\"all\" \x7d\n3. listExpenses — Params: \x7b query: string \x7d\n4. updateExpense — Params: \x7b id: string, updates: \x7b amount?: number, category?: string, note?: string \x7d \x7d\n5. deleteExpenseById — Params: \x7b id: string \x7d (confirm with clarify)\n6. deleteLastExpense — Params: \x7b\x7d (confirm with clarify)\n7. answerUser — Params: \x7b answer: string \x7d\n8. clarify — Params: \x7b question: string \x7d\n\nEXAMPLE:\nUser: \"that food expense from yesterday was wrong\"\n→ \x7b \"tool_name\": \"listExpenses\", \"parameters\": \x7b \"query\": \"food yesterday\" \x7d \x7d\n\n---\nConversation History:\n"

/-- The template text of createMasterPrompt after the spliced history. -/
def promptFooter : String :=
  "\n\nJSON OUTPUT:"

/-- The history.map of createMasterPrompt: render the turns in order;
the first throwing turn aborts the whole formatter. -/
def renderAll : List Turn → Option (List String)
  | [] => some []
  | t :: ts =>
    match renderTurn t, renderAll ts with
    | some s, some rest => some (s :: rest)
    | _, _ => none

/-- createMasterPrompt: format every turn, join with blank lines, splice
into the fixed template.  none models the TypeError thrown when a system
turn carries undefined content (the formatter runs before the try block
of processUserRequest). -/
def createMasterPrompt (history : List Turn) : Option String :=
  (renderAll history).map fun parts =>
    promptHeader ++ String.intercalate "\n\n" parts ++ promptFooter

/-! ## The zod validation ToolSchema.parse (aiService.js lines 15..86)

The discriminated union keyed by tool_name: an unknown discriminator is
an invalid_union_discriminator issue at path tool_name; a known
discriminator delegates to the member object schema, which collects an
issue for every mismatched parameter field (all issues, not only the
first, in schema key order). -/

structure ZodIssue where
  code : String
  path : List String
deriving DecidableEq

def invalidType (path : List String) : ZodIssue :=
  ⟨"invalid_type", path⟩

def unknownToolIssue : ZodIssue :=
  ⟨"invalid_union_discriminator", ["tool_name"]⟩

/-- Property access on a parsed JSON object. -/
def lookupField (fields : List (String × Json)) (key : String) : Option Json :=
  (fields.find? fun p => p.1 == key).map (·.2)

/-- z.number() on a required field. -/
def requireNum (ps : List (String × Json)) (path : List String) (key : String) :
    List ZodIssue × Option Int :=
  match lookupField ps key with
  | some (Json.num n) => ([], some n)
  | _ => ([invalidType (path ++ [key])], none)

/-- z.string() on a required field. -/
def requireStr (ps : List (String × Json)) (path : List String) (key : String) :
    List ZodIssue × Option String :=
  match lookupField ps key with
  | some (Json.str s) => ([], some s)
  | _ => ([invalidType (path ++ [key])], none)

/-- z.number().optional(): an absent field passes, a present field must
be a number. -/
def optionalNum (ps : List (String × Json)) (path : List String) (key : String) :
    List ZodIssue × Option (Option Int) :=
  match lookupField ps key with
  | none => ([], some none)
  | some (Json.num n) => ([], some (some n))
  | some _ => ([invalidType (path ++ [key])], none)

/-- z.string().optional(). -/
def optionalStr (ps : List (String × Json)) (path : List String) (key : String) :
    List ZodIssue × Option (Option String) :=
  match lookupField ps key with
  | none => ([], some none)
  | some (Json.str s) => ([], some (some s))
  | some _ => ([invalidType (path ++ [key])], none)

/-- z.enum of the four period literals. -/
def requirePeriod (ps : List (String × Json)) :
    List ZodIssue × Option Period :=
  match lookupField ps "period" with
  | some (Json.str "today") => ([], some Period.today)
  | some (Json.str "this week") => ([], some Period.thisWeek)
  | some (Json.str "this month") => ([], some Period.thisMonth)
  | some (Json.str "all") => ([], some Period.all)
  | some (Json.str _) => ([⟨"invalid_enum_value", ["parameters", "period"]⟩], none)
  | _ => ([invalidType ["parameters", "period"]], none)

def parseAddExpense (fields : List (String × Json)) :
    Except (List ZodIssue) ToolCall :=
  match lookupField fields "parameters" with
  | some (Json.obj ps) =>
    let ra := requireNum ps ["parameters"] "amount"
    let rc := requireStr ps ["parameters"] "category"
    let rn := optionalStr ps ["parameters"] "note"
    match ra.1 ++ rc.1 ++ rn.1, ra.2, rc.2, rn.2 with
    | [], some a, some c, some n => .ok (ToolCall.addExpense a c n)
    | issues, _, _, _ => .error issues
  | _ => .error [invalidType ["parameters"]]

def parseGetSpendingHistory (fields : List (String × Json)) :
    Except (List ZodIssue) ToolCall :=
  match lookupField fields "parameters" with
  | some (Json.obj ps) =>
    match requirePeriod ps with
    | ([], some p) => .ok (ToolCall.getSpendingHistory p)
    | (issues, _) => .error issues
  | _ => .error [invalidType ["parameters"]]

def parseListExpenses (fields : List (String × Json)) :
    Except (List ZodIssue) ToolCall :=
  match lookupField fields "parameters" with
  | some (Json.obj ps) =>
    match requireStr ps ["parameters"] "query" with
    | ([], some q) => .ok (ToolCall.listExpenses q)
    | (issues, _) => .error issues
  | _ => .error [invalidType ["parameters"]]

def parseUpdateExpense (fields : List (String × Json)) :
    Except (List ZodIssue) ToolCall :=
  match lookupField fields "parameters" with
  | some (Json.obj ps) =>
    let ri := requireStr ps ["parameters"] "id"
    match lookupField ps "updates" with
    | some (Json.obj us) =>
      let ra := optionalNum us ["parameters", "updates"] "amount"
      let rc := optionalStr us ["parameters", "updates"] "category"
      let rn := optionalStr us ["parameters", "updates"] "note"
      match ri.1 ++ ra.1 ++ rc.1 ++ rn.1, ri.2, ra.2, rc.2, rn.2 with
      | [], some id, some a, some c, some n =>
        .ok (ToolCall.updateExpense id a c n)
      | issues, _, _, _, _ => .error issues
    | _ => .error (ri.1 ++ [invalidType ["parameters", "updates"]])
  | _ => .error [invalidType ["parameters"]]

def parseDeleteExpenseById (fields : List (String × Json)) :
    Except (List ZodIssue) ToolCall :=
  match lookupField fields "parameters" with
  | some (Json.obj ps) =>
    match requireStr ps ["parameters"] "id" with
    | ([], some id) => .ok (ToolCall.deleteExpenseById id)
    | (issues, _) => .error issues
  | _ => .error [invalidType ["parameters"]]

def parseDeleteLastExpense (fields : List (String × Json)) :
    Except (List ZodIssue) ToolCall :=
  match lookupField fields "parameters" with
  | some (Json.obj _) => .ok ToolCall.deleteLastExpense
  | _ => .error [invalidType ["parameters"]]

def parseAnswerUser (fields : List (String × Json)) :
    Except (List ZodIssue) ToolCall :=
  match lookupField fields "parameters" with
  | some (Json.obj ps) =>
    match requireStr ps ["parameters"] "answer" with
    | ([], some a) => .ok (ToolCall.answerUser a)
    | (issues, _) => .error issues
  | _ => .error [invalidType ["parameters"]]

def parseClarify (fields : List (String × Json)) :
    Except (List ZodIssue) ToolCall :=
  match lookupField fields "parameters" with
  | some (Json.obj ps) =>
    match requireStr ps ["parameters"] "question" with
    | ([], some q) => .ok (ToolCall.clarify q)
    | (issues, _) => .error issues
  | _ => .error [invalidType ["parameters"]]

/-- ToolSchema.parse: dispatch on the tool_name discriminator, then
validate the matched member schema. -/
def zodParse (j : Json) : Except (List ZodIssue) ToolCall :=
  match j with
  | Json.obj fields =>
    match lookupField fields "tool_name" with
    | some (Json.str "addExpense") => parseAddExpense fields
    | some (Json.str "getSpendingHistory") => parseGetSpendingHistory fields
    | some (Json.str "listExpenses") => parseListExpenses fields
    | some (Json.str "updateExpense") => parseUpdateExpense fields
    | some (Json.str "deleteExpenseById") => parseDeleteExpenseById fields
    | some (Json.str "deleteLastExpense") => parseDeleteLastExpense fields
    | some (Json.str "answerUser") => parseAnswerUser fields
    | some (Json.str "clarify") => parseClarify fields
    | _ => .error [unknownToolIssue]
  | _ => .error [invalidType []]

/-! ## The request orchestrator processUserRequest (aiService.js 137..186)

The model backend and the JSON.parse builtin are oracles: a theorem over
them holds for every transport, status, body and parser behaviour.  The
source performs a single fetch inside one try block; any throw inside
the block lands in the catch, which returns the fallback clarify call.
The traced variant additionally counts the backend calls made. -/

inductive BackendResult where
  | fetchError
  | httpError (status : Nat)
  | jsonError
  | shapeError
  | ok (text : String)

/-- The catch-all fallback of processUserRequest. -/
def fallbackClarify : ToolCall :=
  ToolCall.clarify
    "Sorry, I had trouble processing that request. Could you please rephrase?"

/-- processUserRequest, traced with the number of backend calls it
makes.  The first component is none when the function throws to its
caller (only possible while building the prompt, which happens before
the try block); otherwise it is the returned tool call. -/
def processUserRequestT (backend : String → BackendResult)
    (jsonParse : String → Option Json) (history : List Turn) :
    Option ToolCall × Nat :=
  match createMasterPrompt history with
  | none => (none, 0)
  | some prompt =>
    match backend prompt with
    | BackendResult.ok text =>
      match jsonParse (cleanedJsonString text) with
      | none => (some fallbackClarify, 1)
      | some j =>
        match zodParse j with
        | .error _ => (some fallbackClarify, 1)
        | .ok tc => (some tc, 1)
    | _ => (some fallbackClarify, 1)

def processUserRequest (backend : String → BackendResult)
    (jsonParse : String → Option Json) (history : List Turn) :
    Option ToolCall :=
  (processUserRequestT backend jsonParse history).1

/-! ## The agent loop handleUserSubmit (AgentScreen.js lines 178..284)

The bound tool implementations are storage CRUD functions (external
collaborators); their behaviour is an oracle exec that either returns a
result string or raises.  The model oracle is the composed
processUserRequest, which may itself throw (none).  Any throw inside the
for loop lands in the outer catch, which appends the generic error turn
and ends the submission. -/

inductive ExecResult where
  | ok (result : String)
  | raise

/-- The keys of the toolMapping dispatch table (AgentScreen.js 24..32). -/
def toolMappingNames : List String :=
  ["addExpense", "getSpendingHistory", "deleteLastExpense", "answerUser",
   "listExpenses", "updateExpense", "deleteExpenseById"]

def inToolMapping (n : String) : Bool :=
  toolMappingNames.contains n

/-- The terminal-tool test of the loop. -/
def isTerminalName (n : String) : Bool :=
  n == "clarify" || n == "answerUser"

/-- command.parameters.question || command.parameters.answer: the
JavaScript or-expression yields undefined (none) when the question is
the empty string and there is no answer field. -/
def terminalText : ToolCall → Option String
  | .clarify q => if q = "" then none else some q
  | .answerUser a => some a
  | _ => none

def unregisteredMsg : String :=
  "I encountered an error while processing your request. Please try again."

def faultMsg : String :=
  "Something went wrong. Please try again."

def moreDetailMsg : String :=
  "I need more information to complete this request. Could you please provide additional details?"

/-- The observable result of one submission: the final conversation, the
tool calls dispatched to bound implementations in order, the number of
loop iterations entered, and the terminal state. -/
inductive Outcome where
  | awaitingUser
  | toolUnavailable
  | stepsExhausted
  | faulted
deriving DecidableEq

structure LoopRun where
  conv : List Turn
  dispatched : List ToolCall
  iters : Nat
  outcome : Outcome
deriving DecidableEq

/-- The for loop of handleUserSubmit, with fuel counting the remaining
iterations (initially MAX_STEPS).  Terminal turns are appended to the
conversation but not to the history passed onward, exactly as the source
appends them to the React state only. -/
def runLoop (oracle : List Turn → Option ToolCall) (exec : ToolCall → ExecResult) :
    Nat → List Turn → LoopRun
  | 0, hist => ⟨hist, [], 0, Outcome.stepsExhausted⟩
  | Nat.succ f, hist =>
    match oracle hist with
    | none => ⟨hist ++ [Turn.system (some faultMsg)], [], 1, Outcome.faulted⟩
    | some command =>
      let hist1 := hist ++ [Turn.ai command]
      if isTerminalName command.name then
        ⟨hist1 ++ [Turn.system (terminalText command)], [], 1, Outcome.awaitingUser⟩
      else if !inToolMapping command.name then
        ⟨hist1 ++ [Turn.system (some unregisteredMsg)], [], 1, Outcome.toolUnavailable⟩
      else
        match exec command with
        | ExecResult.raise =>
          ⟨hist1 ++ [Turn.system (some faultMsg)], [command], 1, Outcome.faulted⟩
        | ExecResult.ok result =>
          let hist2 := hist1 ++ [Turn.tool result]
          if f = 0 then
            ⟨hist2 ++ [Turn.system (some moreDetailMsg)], [command], 1,
              Outcome.stepsExhausted⟩
          else
            let rest := runLoop oracle exec f hist2
            ⟨rest.conv, command :: rest.dispatched, rest.iters + 1, rest.outcome⟩

def MAX_STEPS : Nat := 5

/-- handleUserSubmit: guard on blank input, append the trimmed user
message, then run the loop for MAX_STEPS steps.  none models the early
return on blank input (the isLoading re-entrancy guard is outside a
single-submission model). -/
def handleUserSubmit (oracle : List Turn → Option ToolCall)
    (exec : ToolCall → ExecResult) (userInput : String)
    (conversation : List Turn) : Option LoopRun :=
  if jsTrimS userInput = "" then none
  else
    let userMessage := Turn.user (jsTrimS userInput)
    some (runLoop oracle exec MAX_STEPS (conversation ++ [userMessage]))

/-! ## Helper lemmas about the loop -/

/-! ## The orchestrator claims -/

/-- A turn whose content the history formatter can render (every turn
except a system turn with undefined content). -/
def definedContent : Turn → Bool
  | Turn.system none => false
  | _ => true

def isFailure : BackendResult → Bool
  | BackendResult.ok _ => false
  | _ => true

/-! ## The validation claims -/

/-- A required z.number field that is absent or not a number. -/
def badNumField (ps : List (String × Json)) (key : String) : Bool :=
  match lookupField ps key with
  | some (Json.num _) => false
  | _ => true

/-- A required z.string field that is absent or not a string. -/
def badStrField (ps : List (String × Json)) (key : String) : Bool :=
  match lookupField ps key with
  | some (Json.str _) => false
  | _ => true

/-- An optional string field that is present with a non-string value. -/
def badOptStrField (ps : List (String × Json)) (key : String) : Bool :=
  match lookupField ps key with
  | none => false
  | some (Json.str _) => false
  | _ => true

/-- An optional number field that is present with a non-number value. -/
def badOptNumField (ps : List (String × Json)) (key : String) : Bool :=
  match lookupField ps key with
  | none => false
  | some (Json.num _) => false
  | _ => true

/-- A period field that is absent or not one of the four enum strings. -/
def badPeriodField (ps : List (String × Json)) : Bool :=
  match lookupField ps "period" with
  | some (Json.str "today") => false
  | some (Json.str "this week") => false
  | some (Json.str "this month") => false
  | some (Json.str "all") => false
  | _ => true

/-- The validation result is an error whose issue list contains the
given issue. -/
def issueMem (r : Except (List ZodIssue) ToolCall) (i : ZodIssue) : Prop :=
  ∃ issues, r = Except.error issues ∧ i ∈ issues

/-- A candidate object with the given tool_name and parameters value. -/
def mkCand (n : String) (p : Json) : Json :=
  Json.obj [("tool_name", Json.str n), ("parameters", p)]

def hexVal (c : Char) : Nat :=
  if c.toNat ≥ 97 then c.toNat - 87 else c.toNat - 48

/-- Dropping an expected literal prefix. -/
def dropPre : List Char → List Char → Option (List Char)
  | [], s => some s
  | _ :: _, [] => none
  | l :: ls, c :: cs => if l = c then dropPre ls cs else none

def digitsVal (ds : List Char) : Nat :=
  ds.foldl (fun a c => a * 10 + (c.toNat - 48)) 0

def parseDigits (s : List Char) : Option (Nat × List Char) :=
  match s.takeWhile Char.isDigit with
  | [] => none
  | ds => some (digitsVal ds, s.dropWhile Char.isDigit)

def parseInt (s : List Char) : Option (Int × List Char) :=
  match s with
  | '-' :: r => (parseDigits r).map fun p => (-(p.1 : Int), p.2)
  | s => (parseDigits s).map fun p => ((p.1 : Int), p.2)

/-- Decoder for a JSON string body up to and including its closing
quote: returns the decoded content and the remainder after the quote. -/
def parseEsc : List Char → Option (List Char × List Char)
  | [] => none
  | c :: r =>
    if c = '"' then some ([], r)
    else if c = '\\' then
      match r with
      | [] => none
      | e :: r2 =>
        if e = '"' then (parseEsc r2).map fun p => ('"' :: p.1, p.2)
        else if e = '\\' then (parseEsc r2).map fun p => ('\\' :: p.1, p.2)
        else if e = 'n' then (parseEsc r2).map fun p => ('\n' :: p.1, p.2)
        else if e = 'r' then (parseEsc r2).map fun p => ('\r' :: p.1, p.2)
        else if e = 't' then (parseEsc r2).map fun p => ('\t' :: p.1, p.2)
        else if e = 'b' then (parseEsc r2).map fun p => ('\x08' :: p.1, p.2)
        else if e = 'f' then (parseEsc r2).map fun p => ('\x0c' :: p.1, p.2)
        else if e = 'u' then
          match r2 with
          | d0 :: d1 :: d2 :: d3 :: r3 =>
            if d0 = '0' ∧ d1 = '0' then
              (parseEsc r3).map fun p =>
                (Char.ofNat (hexVal d2 * 16 + hexVal d3) :: p.1, p.2)
            else none
          | _ => none
        else none
    else (parseEsc r).map fun p => (c :: p.1, p.2)
termination_by s => s.length
decreasing_by all_goals simp_wf <;> omega

/-! ## Decoder for the updates object -/

def updEnd (ua : Option Int) (uc un : Option String) (s : List Char) :
    Option ((Option Int × Option String × Option String) × List Char) :=
  match dropPre "\n    \x7d".data s with
  | some t => some ((ua, uc, un), t)
  | none => none

def updNoteKey (first : Bool) : List Char :=
  if first then "      \"note\": \"".data else ",\n      \"note\": \"".data

def updNote (ua : Option Int) (uc : Option String) (first : Bool)
    (s : List Char) :
    Option ((Option Int × Option String × Option String) × List Char) :=
  match dropPre (updNoteKey first) s with
  | some u =>
    match parseEsc u with
    | some (n, t) => updEnd ua uc (some (String.mk n)) t
    | none => none
  | none => updEnd ua uc none s

def updCatKey (first : Bool) : List Char :=
  if first then "      \"category\": \"".data
  else ",\n      \"category\": \"".data

def updCat (ua : Option Int) (first : Bool) (s : List Char) :
    Option ((Option Int × Option String × Option String) × List Char) :=
  match dropPre (updCatKey first) s with
  | some u =>
    match parseEsc u with
    | some (c, t) => updNote ua (some (String.mk c)) false t
    | none => none
  | none => updNote ua none first s

def decodeUpdates (s : List Char) :
    Option ((Option Int × Option String × Option String) × List Char) :=
  match dropPre "\x7b\x7d".data s with
  | some t => some (((none : Option Int), (none : Option String),
      (none : Option String)), t)
  | none =>
    match dropPre "\x7b\n".data s with
    | none => none
    | some s1 =>
      match dropPre "      \"amount\": ".data s1 with
      | some u =>
        match parseInt u with
        | some (a, s2) => updCat (some a) false s2
        | none => none
      | none => updCat none true s1

/-- Decoder for the JSON.stringify rendering of a validated tool call
(left inverse of stringifyToolCall). -/
def decodeTC (s : List Char) : Option ToolCall :=
  match dropPre "\x7b\n  \"tool_name\": \"".data s with
  | none => none
  | some s1 =>
    let name := s1.takeWhile (fun c => c ≠ '"')
    match dropPre "\",\n  \"parameters\": ".data
        (s1.dropWhile (fun c => c ≠ '"')) with
    | none => none
    | some s3 =>
      if String.mk name = "addExpense" then
        match dropPre "\x7b\n    \"amount\": ".data s3 with
        | none => none
        | some u =>
          match parseInt u with
          | none => none
          | some (a, s4) =>
            match dropPre ",\n    \"category\": \"".data s4 with
            | none => none
            | some u2 =>
              match parseEsc u2 with
              | none => none
              | some (cat, s5) =>
                if s5 = "\n  \x7d\n\x7d".data then
                  some (ToolCall.addExpense a (String.mk cat) none)
                else
                  match dropPre ",\n    \"note\": \"".data s5 with
                  | none => none
                  | some u3 =>
                    match parseEsc u3 with
                    | none => none
                    | some (nt, s6) =>
                      if s6 = "\n  \x7d\n\x7d".data then
                        some (ToolCall.addExpense a (String.mk cat)
                          (some (String.mk nt)))
                      else none
      else if String.mk name = "getSpendingHistory" then
        if s3 = "\x7b\n    \"period\": \"today\"\n  \x7d\n\x7d".data then
          some (ToolCall.getSpendingHistory Period.today)
        else if s3 = "\x7b\n    \"period\": \"this week\"\n  \x7d\n\x7d".data then
          some (ToolCall.getSpendingHistory Period.thisWeek)
        else if s3 = "\x7b\n    \"period\": \"this month\"\n  \x7d\n\x7d".data then
          some (ToolCall.getSpendingHistory Period.thisMonth)
        else if s3 = "\x7b\n    \"period\": \"all\"\n  \x7d\n\x7d".data then
          some (ToolCall.getSpendingHistory Period.all)
        else none
      else if String.mk name = "listExpenses" then
        match dropPre "\x7b\n    \"query\": \"".data s3 with
        | none => none
        | some u =>
          match parseEsc u with
          | none => none
          | some (q, s4) =>
            if s4 = "\n  \x7d\n\x7d".data then
              some (ToolCall.listExpenses (String.mk q))
            else none
      else if String.mk name = "updateExpense" then
        match dropPre "\x7b\n    \"id\": \"".data s3 with
        | none => none
        | some u =>
          match parseEsc u with
          | none => none
          | some (id, s4) =>
            match dropPre ",\n    \"updates\": ".data s4 with
            | none => none
            | some s5 =>
              match decodeUpdates s5 with
              | none => none
              | some ((ua, uc, un), t) =>
                if t = "\n  \x7d\n\x7d".data then
                  some (ToolCall.updateExpense (String.mk id) ua uc un)
                else none
      else if String.mk name = "deleteExpenseById" then
        match dropPre "\x7b\n    \"id\": \"".data s3 with
        | none => none
        | some u =>
          match parseEsc u with
          | none => none
          | some (id, s4) =>
            if s4 = "\n  \x7d\n\x7d".data then
              some (ToolCall.deleteExpenseById (String.mk id))
            else none
      else if String.mk name = "deleteLastExpense" then
        if s3 = "\x7b\x7d\n\x7d".data then some ToolCall.deleteLastExpense
        else none
      else if String.mk name = "answerUser" then
        match dropPre "\x7b\n    \"answer\": \"".data s3 with
        | none => none
        | some u =>
          match parseEsc u with
          | none => none
          | some (ans, s4) =>
            if s4 = "\n  \x7d\n\x7d".data then
              some (ToolCall.answerUser (String.mk ans))
            else none
      else if String.mk name = "clarify" then
        match dropPre "\x7b\n    \"question\": \"".data s3 with
        | none => none
        | some u =>
          match parseEsc u with
          | none => none
          | some (q, s4) =>
            if s4 = "\n  \x7d\n\x7d".data then
              some (ToolCall.clarify (String.mk q))
            else none
      else none

/-! ## Theorems -/

/-- Every non-terminal member of the discriminated union is a key of the
toolMapping dispatch table. -/
theorem registered_of_not_terminal (c : ToolCall)
    (h : isTerminalName c.name = false) : inToolMapping c.name = true := by
  cases c <;> simp_all [ToolCall.name, isTerminalName, inToolMapping, toolMappingNames]

/-- Every member of the discriminated union is terminal or registered. -/
theorem terminal_or_mapped (c : ToolCall) :
    isTerminalName c.name = true ∨ inToolMapping c.name = true := by
  cases c <;> simp [ToolCall.name, isTerminalName, inToolMapping, toolMappingNames]

/-- Every positive-fuel run of the loop extends the incoming history and
ends the conversation with a system turn. -/
theorem runLoop_last_system (oracle : List Turn → Option ToolCall)
    (exec : ToolCall → ExecResult) :
    ∀ f hist, f ≠ 0 →
      (∃ rest, (runLoop oracle exec f hist).conv = hist ++ rest) ∧
      (∃ s, (runLoop oracle exec f hist).conv.getLast? = some (Turn.system s)) := by
  intro f
  induction f with
  | zero => intro hist h; exact absurd rfl h
  | succ f ih =>
    intro hist _
    cases horacle : oracle hist with
    | none =>
      constructor
      · exact ⟨[Turn.system (some faultMsg)], by simp [runLoop, horacle]⟩
      · exact ⟨some faultMsg, by simp [runLoop, horacle]⟩
    | some c =>
      by_cases hterm : isTerminalName c.name = true
      · constructor
        · exact ⟨[Turn.ai c, Turn.system (terminalText c)],
            by simp [runLoop, horacle, hterm]⟩
        · exact ⟨terminalText c, by simp [runLoop, horacle, hterm]⟩
      · have hmap := registered_of_not_terminal c (by simpa using hterm)
        cases hexec : exec c with
        | raise =>
          constructor
          · exact ⟨[Turn.ai c, Turn.system (some faultMsg)],
              by simp [runLoop, horacle, hterm, hmap, hexec]⟩
          · exact ⟨some faultMsg, by simp [runLoop, horacle, hterm, hmap, hexec]⟩
        | ok result =>
          by_cases hf : f = 0
          · subst hf
            constructor
            · exact ⟨[Turn.ai c, Turn.tool result, Turn.system (some moreDetailMsg)],
                by simp [runLoop, horacle, hterm, hmap, hexec]⟩
            · exact ⟨some moreDetailMsg,
                by simp [runLoop, horacle, hterm, hmap, hexec]⟩
          · obtain ⟨⟨rest, hrest⟩, s, hs⟩ :=
              ih (hist ++ [Turn.ai c, Turn.tool result]) hf
            constructor
            · refine ⟨[Turn.ai c, Turn.tool result] ++ rest, ?_⟩
              simp only [runLoop, horacle, hterm, hmap, hexec, hf]
              simp only [Bool.not_eq_true] at hterm
              simp only [hterm, hmap, hexec, hf, Bool.not_true, if_false,
                Bool.false_eq_true, ite_false]
              simp at hrest ⊢
              simpa using hrest
            · refine ⟨s, ?_⟩
              simp only [runLoop, horacle, hterm, hmap, hexec, hf]
              simp only [Bool.not_eq_true] at hterm
              simp only [hterm, hmap, hexec, hf, Bool.not_true, if_false,
                Bool.false_eq_true, ite_false]
              simp at hs ⊢
              simpa using hs

/-- One unfolding of the loop on a successful non-terminal dispatch with
fuel remaining. -/
theorem runLoop_succ_ok (oracle : List Turn → Option ToolCall)
    (exec : ToolCall → ExecResult) (f : Nat) (hist : List Turn) (c : ToolCall)
    (s : String) (hc : oracle hist = some c)
    (hterm : isTerminalName c.name = false)
    (hmap : inToolMapping c.name = true) (hs : exec c = ExecResult.ok s)
    (hf : f ≠ 0) :
    runLoop oracle exec (f + 1) hist =
      ⟨(runLoop oracle exec f (hist ++ [Turn.ai c, Turn.tool s])).conv,
       c :: (runLoop oracle exec f (hist ++ [Turn.ai c, Turn.tool s])).dispatched,
       (runLoop oracle exec f (hist ++ [Turn.ai c, Turn.tool s])).iters + 1,
       (runLoop oracle exec f (hist ++ [Turn.ai c, Turn.tool s])).outcome⟩ := by
  conv_lhs => rw [runLoop]
  simp [hc, hterm, hmap, hs, hf]

/-- In a run where the model oracle always yields a non-terminal tool
call and every dispatch succeeds, positive fuel is consumed completely,
the run exhausts its steps, and the closing more-detail turn is
appended. -/
theorem runLoop_allOk (oracle : List Turn → Option ToolCall)
    (exec : ToolCall → ExecResult)
    (horacle : ∀ h, ∃ c, oracle h = some c ∧ isTerminalName c.name = false)
    (hexec : ∀ c, ∃ s, exec c = ExecResult.ok s) :
    ∀ f hist,
      (runLoop oracle exec (f + 1) hist).iters = f + 1 ∧
      (runLoop oracle exec (f + 1) hist).outcome = Outcome.stepsExhausted ∧
      (runLoop oracle exec (f + 1) hist).dispatched.length = f + 1 ∧
      (runLoop oracle exec (f + 1) hist).conv.getLast? =
        some (Turn.system (some moreDetailMsg)) := by
  intro f
  induction f with
  | zero =>
    intro hist
    obtain ⟨c, hc, hterm⟩ := horacle hist
    obtain ⟨s, hs⟩ := hexec c
    have hmap := registered_of_not_terminal c hterm
    refine ⟨?_, ?_, ?_, ?_⟩ <;> simp [runLoop, hc, hterm, hmap, hs]
  | succ f ih =>
    intro hist
    obtain ⟨c, hc, hterm⟩ := horacle hist
    obtain ⟨s, hs⟩ := hexec c
    have hmap := registered_of_not_terminal c hterm
    obtain ⟨h1, h2, h3, h4⟩ := ih (hist ++ [Turn.ai c, Turn.tool s])
    rw [runLoop_succ_ok oracle exec (f + 1) hist c s hc hterm hmap hs (by omega)]
    refine ⟨?_, ?_, ?_, ?_⟩ <;> simp [h1, h2, h3, h4]

/-- Claim C3: when the orchestrator always returns a schema-valid
non-terminal tool call for a registered tool and every dispatch
succeeds, a submission runs exactly MAX_STEPS = 5 loop iterations,
dispatches five tool calls, appends the final more-detail turn, and
terminates in the steps-exhausted state. -/
theorem agentLoop_steps_exhausted (oracle : List Turn → Option ToolCall)
    (exec : ToolCall → ExecResult) (userInput : String)
    (conversation : List Turn)
    (hin : jsTrimS userInput ≠ "")
    (horacle : ∀ h, ∃ c, oracle h = some c ∧ isTerminalName c.name = false)
    (hexec : ∀ c, ∃ s, exec c = ExecResult.ok s) :
    ∃ run, handleUserSubmit oracle exec userInput conversation = some run ∧
      run.iters = MAX_STEPS ∧ run.outcome = Outcome.stepsExhausted ∧
      run.dispatched.length = MAX_STEPS ∧
      run.conv.getLast? = some (Turn.system (some moreDetailMsg)) := by
  refine ⟨runLoop oracle exec MAX_STEPS
    (conversation ++ [Turn.user (jsTrimS userInput)]), ?_, ?_⟩
  · simp [handleUserSubmit, hin]
  · have h := runLoop_allOk oracle exec horacle hexec 4
      (conversation ++ [Turn.user (jsTrimS userInput)])
    simpa [MAX_STEPS] using h

/-- Witness for C3 at a concrete no-op tool and input. -/
theorem agentLoop_steps_exhausted_witness :
    ∃ run, handleUserSubmit (fun _ => some (ToolCall.listExpenses "all"))
        (fun _ => ExecResult.ok "RESULT: ok") "list my expenses" [] = some run ∧
      run.iters = MAX_STEPS ∧ run.outcome = Outcome.stepsExhausted ∧
      run.dispatched.length = MAX_STEPS ∧
      run.conv.getLast? = some (Turn.system (some moreDetailMsg)) :=
  agentLoop_steps_exhausted _ _ _ _ (by decide)
    (fun _ => ⟨ToolCall.listExpenses "all", rfl, by decide⟩)
    (fun _ => ⟨"RESULT: ok", rfl⟩)

/-- Claim C4: when the orchestrator returns a terminal tool call
(answerUser or clarify), the loop appends its user-facing text (the
JavaScript expression question-or-answer) as a final system turn and
terminates at once in the awaiting-user state, dispatching no bound
implementation; in particular a returned clarify is never bypassed. -/
theorem terminal_toolcall_ends_loop (oracle : List Turn → Option ToolCall)
    (exec : ToolCall → ExecResult) (f : Nat) (hist : List Turn) (c : ToolCall)
    (horacle : oracle hist = some c) (hterm : isTerminalName c.name = true) :
    runLoop oracle exec (f + 1) hist =
      ⟨hist ++ [Turn.ai c, Turn.system (terminalText c)], [], 1,
        Outcome.awaitingUser⟩ := by
  simp [runLoop, horacle, hterm]

/-- Witness for C4 at a concrete clarify call. -/
theorem terminal_toolcall_ends_loop_witness :
    runLoop (fun _ => some (ToolCall.clarify "Which one?"))
        (fun _ => ExecResult.raise) 5 [Turn.user "delete it"] =
      ⟨[Turn.user "delete it", Turn.ai (ToolCall.clarify "Which one?"),
        Turn.system (terminalText (ToolCall.clarify "Which one?"))], [], 1,
        Outcome.awaitingUser⟩ := by
  have h := terminal_toolcall_ends_loop
    (fun _ => some (ToolCall.clarify "Which one?")) (fun _ => ExecResult.raise)
    4 [Turn.user "delete it"] (ToolCall.clarify "Which one?") rfl (by decide)
  simpa using h

/-- Claim C5 (amended): when a dispatched bound implementation raises,
the loop does not convert the failure into an observation turn; the
raise reaches the outer catch, a generic system error turn is appended,
and the submission ends at once in the faulted state.  Failures that
bound implementations report as returned ERROR strings are the ones
appended as observation turns. -/
theorem tool_raise_faults_loop (oracle : List Turn → Option ToolCall)
    (exec : ToolCall → ExecResult) (f : Nat) (hist : List Turn) (c : ToolCall)
    (horacle : oracle hist = some c)
    (hterm : isTerminalName c.name = false)
    (hexec : exec c = ExecResult.raise) :
    runLoop oracle exec (f + 1) hist =
      ⟨hist ++ [Turn.ai c, Turn.system (some faultMsg)], [c], 1,
        Outcome.faulted⟩ := by
  have hmap := registered_of_not_terminal c hterm
  simp [runLoop, horacle, hterm, hmap, hexec]

/-- Witness for the amended C5 at a concrete raising tool. -/
theorem tool_raise_faults_loop_witness :
    runLoop (fun _ => some (ToolCall.deleteLastExpense))
        (fun _ => ExecResult.raise) 5 [Turn.user "undo"] =
      ⟨[Turn.user "undo", Turn.ai ToolCall.deleteLastExpense,
        Turn.system (some faultMsg)], [ToolCall.deleteLastExpense], 1,
        Outcome.faulted⟩ := by
  have h := tool_raise_faults_loop (fun _ => some (ToolCall.deleteLastExpense))
    (fun _ => ExecResult.raise) 4 [Turn.user "undo"] ToolCall.deleteLastExpense
    rfl (by decide) rfl
  simpa using h

/-- Counterexample to C5 as stated: a raising implementation is not
captured as a textual observation turn and the loop does not continue —
the run ends after one iteration in the faulted state with no tool-role
turn in the conversation. -/
theorem tool_raise_not_an_observation :
    handleUserSubmit (fun _ => some (ToolCall.listExpenses "food"))
        (fun _ => ExecResult.raise) "fix that" [] =
      some ⟨[Turn.user "fix that", Turn.ai (ToolCall.listExpenses "food"),
             Turn.system (some faultMsg)], [ToolCall.listExpenses "food"], 1,
            Outcome.faulted⟩ ∧
    ∀ t ∈ [Turn.user "fix that", Turn.ai (ToolCall.listExpenses "food"),
           Turn.system (some faultMsg)], t.role ≠ Role.tool := by
  decide

/-- Claim C9: every handled submission appends the trimmed user message
and ends the conversation with a system turn — there is no terminal path
that appends no message. -/
theorem submission_always_ends_with_message
    (oracle : List Turn → Option ToolCall) (exec : ToolCall → ExecResult)
    (input : String) (conv : List Turn) (run : LoopRun)
    (h : handleUserSubmit oracle exec input conv = some run) :
    (∃ rest, run.conv = conv ++ Turn.user (jsTrimS input) :: rest) ∧
    (∃ s, run.conv.getLast? = some (Turn.system s)) := by
  unfold handleUserSubmit at h
  by_cases hin : jsTrimS input = ""
  · simp [hin] at h
  · simp [hin] at h
    obtain ⟨⟨rest, hrest⟩, s, hs⟩ := runLoop_last_system oracle exec MAX_STEPS
      (conv ++ [Turn.user (jsTrimS input)]) (by decide)
    subst h
    constructor
    · exact ⟨rest, by simpa using hrest⟩
    · exact ⟨s, hs⟩

/-- Witness for C9 at a concrete answering oracle. -/
theorem submission_always_ends_with_message_witness :
    (∃ rest, [Turn.user "hello", Turn.ai (ToolCall.answerUser "hi"),
        Turn.system (some "hi")] = ([] : List Turn) ++
        Turn.user (jsTrimS "hello") :: rest) ∧
    (∃ s, [Turn.user "hello", Turn.ai (ToolCall.answerUser "hi"),
        Turn.system (some "hi")].getLast? = some (Turn.system s)) := by
  have h := submission_always_ends_with_message
    (fun _ => some (ToolCall.answerUser "hi")) (fun _ => ExecResult.ok "x")
    "hello" []
    ⟨[Turn.user "hello", Turn.ai (ToolCall.answerUser "hi"),
      Turn.system (some "hi")], [], 1, Outcome.awaitingUser⟩ (by decide)
  simpa using h

/-- Claim C10: every tool call the orchestrator can return names either
a terminal tool or a key of the dispatch table, and consequently the
unregistered-tool branch of the loop is unreachable: no run ends in the
tool-unavailable state. -/
theorem unregistered_branch_unreachable :
    (∀ backend jsonParse history tc,
        processUserRequest backend jsonParse history = some tc →
        isTerminalName tc.name = true ∨ inToolMapping tc.name = true) ∧
    (∀ (oracle : List Turn → Option ToolCall) (exec : ToolCall → ExecResult)
        (f : Nat) (hist : List Turn),
        (runLoop oracle exec f hist).outcome ≠ Outcome.toolUnavailable) := by
  constructor
  · intro _ _ _ tc _
    exact terminal_or_mapped tc
  · intro oracle exec f
    induction f with
    | zero => intro hist; simp [runLoop]
    | succ f ih =>
      intro hist
      cases horacle : oracle hist with
      | none => simp [runLoop, horacle]
      | some c =>
        by_cases hterm : isTerminalName c.name = true
        · simp [runLoop, horacle, hterm]
        · have hmap := registered_of_not_terminal c (by simpa using hterm)
          cases hexec : exec c with
          | raise => simp [runLoop, horacle, hterm, hmap, hexec]
          | ok result =>
            by_cases hf : f = 0
            · subst hf; simp [runLoop, horacle, hterm, hmap, hexec]
            · simp [runLoop, horacle, hterm, hmap, hexec, hf]
              exact ih _

/-- Witness for C10: the fallback clarify is dispatchable and a concrete
run does not end tool-unavailable. -/
theorem unregistered_branch_unreachable_witness :
    (isTerminalName fallbackClarify.name = true ∨
      inToolMapping fallbackClarify.name = true) ∧
    (runLoop (fun _ => none) (fun _ => ExecResult.raise) 5
        [Turn.user "hi"]).outcome ≠ Outcome.toolUnavailable :=
  ⟨unregistered_branch_unreachable.1 (fun _ => BackendResult.fetchError)
      (fun _ => none) [] fallbackClarify (by decide),
    unregistered_branch_unreachable.2 (fun _ => none)
      (fun _ => ExecResult.raise) 5 [Turn.user "hi"]⟩

/-- The history formatter succeeds on every history whose turns all have
defined content. -/
theorem createMasterPrompt_total (history : List Turn)
    (hwf : ∀ t ∈ history, definedContent t = true) :
    ∃ p, createMasterPrompt history = some p := by
  have hparts : ∃ parts, renderAll history = some parts := by
    induction history with
    | nil => exact ⟨[], rfl⟩
    | cons t ts ih =>
      have ht := hwf t (by simp)
      have hs : ∃ s, renderTurn t = some s := by
        cases t with
        | user c => exact ⟨_, rfl⟩
        | ai c => exact ⟨_, rfl⟩
        | tool c => exact ⟨_, rfl⟩
        | system c =>
          cases c with
          | none => simp [definedContent] at ht
          | some s => exact ⟨_, rfl⟩
      obtain ⟨s, hsome⟩ := hs
      obtain ⟨parts, hps⟩ := ih (fun u hu => hwf u (by simp [hu]))
      exact ⟨s :: parts, by simp [renderAll, hsome, hps]⟩
  obtain ⟨parts, hps⟩ := hparts
  exact ⟨promptHeader ++ String.intercalate "\n\n" parts ++ promptFooter,
    by simp [createMasterPrompt, hps]⟩

/-- Claim C1 (amended): for every history whose turns carry defined
content and every backend, parser and validation behaviour, the
orchestrator returns a tool call that is either zod-validated output or
the fallback clarify; under any of the three failure modes (backend
failure, parse failure, validation failure of every parsed candidate) it
returns exactly the fallback clarify, which is a well-formed terminal
clarify asking the user to rephrase. -/
theorem orchestrator_total_fallback :
    (∀ backend jsonParse history,
        (∀ t ∈ history, definedContent t = true) →
        ∃ tc, processUserRequest backend jsonParse history = some tc ∧
          ((∃ j, zodParse j = Except.ok tc) ∨ tc = fallbackClarify)) ∧
    (∀ backend jsonParse history,
        (∀ t ∈ history, definedContent t = true) →
        (∀ s, isFailure (backend s) = true) →
        processUserRequest backend jsonParse history = some fallbackClarify) ∧
    (∀ backend jsonParse history,
        (∀ t ∈ history, definedContent t = true) →
        (∀ s, jsonParse s = none) →
        processUserRequest backend jsonParse history = some fallbackClarify) ∧
    (∀ backend jsonParse history,
        (∀ t ∈ history, definedContent t = true) →
        (∀ s j, jsonParse s = some j → ∃ issues, zodParse j = Except.error issues) →
        processUserRequest backend jsonParse history = some fallbackClarify) ∧
    (isTerminalName fallbackClarify.name = true ∧
      fallbackClarify = ToolCall.clarify
        "Sorry, I had trouble processing that request. Could you please rephrase?") := by
  refine ⟨?_, ?_, ?_, ?_, by decide, rfl⟩
  · intro backend jsonParse history hwf
    obtain ⟨p, hp⟩ := createMasterPrompt_total history hwf
    simp only [processUserRequest, processUserRequestT, hp]
    cases hb : backend p with
    | ok text =>
      cases hj : jsonParse (cleanedJsonString text) with
      | none => exact ⟨fallbackClarify, by simp [hj], Or.inr rfl⟩
      | some j =>
        cases hz : zodParse j with
        | error issues => exact ⟨fallbackClarify, by simp [hj, hz], Or.inr rfl⟩
        | ok tc => exact ⟨tc, by simp [hj, hz], Or.inl ⟨j, hz⟩⟩
    | fetchError => exact ⟨fallbackClarify, rfl, Or.inr rfl⟩
    | httpError status => exact ⟨fallbackClarify, rfl, Or.inr rfl⟩
    | jsonError => exact ⟨fallbackClarify, rfl, Or.inr rfl⟩
    | shapeError => exact ⟨fallbackClarify, rfl, Or.inr rfl⟩
  · intro backend jsonParse history hwf hfail
    obtain ⟨p, hp⟩ := createMasterPrompt_total history hwf
    simp only [processUserRequest, processUserRequestT, hp]
    cases hb : backend p with
    | ok text => have := hfail p; rw [hb] at this; simp [isFailure] at this
    | fetchError => rfl
    | httpError status => rfl
    | jsonError => rfl
    | shapeError => rfl
  · intro backend jsonParse history hwf hnone
    obtain ⟨p, hp⟩ := createMasterPrompt_total history hwf
    simp only [processUserRequest, processUserRequestT, hp]
    cases hb : backend p with
    | ok text => simp [hnone (cleanedJsonString text)]
    | fetchError => rfl
    | httpError status => rfl
    | jsonError => rfl
    | shapeError => rfl
  · intro backend jsonParse history hwf hbad
    obtain ⟨p, hp⟩ := createMasterPrompt_total history hwf
    simp only [processUserRequest, processUserRequestT, hp]
    cases hb : backend p with
    | ok text =>
      cases hj : jsonParse (cleanedJsonString text) with
      | none => simp [hj]
      | some j =>
        obtain ⟨issues, hz⟩ := hbad (cleanedJsonString text) j hj
        simp [hj, hz]
    | fetchError => rfl
    | httpError status => rfl
    | jsonError => rfl
    | shapeError => rfl

/-- Witness for the amended C1 at concrete failing behaviours. -/
theorem orchestrator_total_fallback_witness :
    (∃ tc, processUserRequest (fun _ => BackendResult.fetchError)
        (fun _ => none) [Turn.user "hi"] = some tc ∧
      ((∃ j, zodParse j = Except.ok tc) ∨ tc = fallbackClarify)) ∧
    processUserRequest (fun _ => BackendResult.httpError 500) (fun _ => none)
      [Turn.user "hi"] = some fallbackClarify :=
  ⟨orchestrator_total_fallback.1 (fun _ => BackendResult.fetchError)
      (fun _ => none) [Turn.user "hi"] (by decide),
    orchestrator_total_fallback.2.1 (fun _ => BackendResult.httpError 500)
      (fun _ => none) [Turn.user "hi"] (by decide) (fun _ => rfl)⟩

/-- Counterexample to C1 as stated: on a history containing a system
turn with undefined content (producible by a schema-valid clarify whose
question is the empty string), the prompt construction runs before the
try block and throws, so processUserRequest throws to its caller. -/
theorem orchestrator_throws_on_undefined_content :
    processUserRequest (fun _ => BackendResult.fetchError) (fun _ => none)
      [Turn.system none] = none := rfl

/-- Claim C2 (amended): with a backend that fails on every call, the
orchestrator makes exactly one backend attempt — there is no retry and
no backoff wait — and immediately returns the fallback clarify; it does
not throw. -/
theorem orchestrator_single_attempt (backend : String → BackendResult)
    (jsonParse : String → Option Json) (history : List Turn)
    (hwf : ∀ t ∈ history, definedContent t = true)
    (hfail : ∀ s, isFailure (backend s) = true) :
    processUserRequestT backend jsonParse history = (some fallbackClarify, 1) := by
  obtain ⟨p, hp⟩ := createMasterPrompt_total history hwf
  simp only [processUserRequestT, hp]
  cases hb : backend p with
  | ok text => have := hfail p; rw [hb] at this; simp [isFailure] at this
  | fetchError => rfl
  | httpError status => rfl
  | jsonError => rfl
  | shapeError => rfl

/-- Witness for the amended C2 at a concrete failing backend. -/
theorem orchestrator_single_attempt_witness :
    processUserRequestT (fun _ => BackendResult.httpError 500) (fun _ => none)
      [Turn.user "add 20 chai"] = (some fallbackClarify, 1) :=
  orchestrator_single_attempt _ _ _ (by decide) (fun _ => rfl)

/-- Counterexample to C2 as stated: with an always-failing backend the
orchestrator makes exactly one attempt, not MAX = 3. -/
theorem orchestrator_not_three_attempts :
    (processUserRequestT (fun _ => BackendResult.fetchError) (fun _ => none)
      [Turn.user "hi"]).2 = 1 ∧ (1 : Nat) ≠ 3 :=
  ⟨rfl, by decide⟩

/-! ## The response-cleaning claims -/

theorem isPrefixOf_append_self (l r : List Char) : l.isPrefixOf (l ++ r) = true := by
  induction l with
  | nil => simp [List.isPrefixOf]
  | cons c l ih => simp [List.isPrefixOf, ih]

theorem fenceOpen_not_prefix (c : Char) (xs : List Char) (hc : c ≠ '\x60') :
    fenceOpen.isPrefixOf (c :: xs) = false := by
  rw [show fenceOpen = '\x60' :: "``json".data from rfl]
  simp [List.isPrefixOf]
  intro h
  exact absurd h.symm hc

/-- The fence-opener replace walks over any backtick-free prefix. -/
theorem stripFenceOpen_skip (p l : List Char) (hp : ∀ c ∈ p, c ≠ '\x60') :
    stripFenceOpen (p ++ l) = p ++ stripFenceOpen l := by
  induction p with
  | nil => rfl
  | cons c p ih =>
    have hc := hp c (by simp)
    have hpre := fenceOpen_not_prefix c (p ++ l) hc
    simp only [List.cons_append, stripFenceOpen, List.append_eq, hpre,
      Bool.false_eq_true, if_false]
    rw [ih (fun x hx => hp x (by simp [hx]))]

theorem stripFenceOpen_at_fence (s : List Char)
    (h : fenceOpen.isPrefixOf s = true) :
    stripFenceOpen s = match s.drop 7 with
      | '\n' :: r => r
      | r => r := by
  cases s with
  | nil => exact absurd h (by decide)
  | cons c rest => simp [stripFenceOpen, h]

/-- Deleting the leftmost json fence opener together with its newline. -/
theorem stripFenceOpen_fence (r : List Char) :
    stripFenceOpen ("```json\n".data ++ r) = r := by
  have h : fenceOpen.isPrefixOf ("```json\n".data ++ r) = true := by
    rw [show "```json\n".data = fenceOpen ++ ['\n'] from rfl, List.append_assoc]
    exact isPrefixOf_append_self _ _
  rw [stripFenceOpen_at_fence _ h]
  have hdrop : ("```json\n".data ++ r).drop 7 = '\n' :: r := by
    rw [List.drop_append_of_le_length (by decide)]
    rfl
  rw [hdrop]
  rfl

/-- The trailing-fence replace either removes the last three characters
or nothing; when the argument splits as A ++ B with B at least three
characters long, A survives intact. -/
theorem stripFenceClose_take (A B : List Char) (hlen : 3 ≤ B.length) :
    ∃ k, stripFenceClose (A ++ B) = A ++ B.take k := by
  unfold stripFenceClose
  by_cases h : ("```".data).isSuffixOf (A ++ B) = true
  · refine ⟨B.length - 3, ?_⟩
    simp only [h, if_true]
    rw [List.length_append,
      show A.length + B.length - 3 = A.length + (B.length - 3) by omega]
    exact List.take_append (B.length - 3)
  · refine ⟨B.length, ?_⟩
    simp [h]

/-- The lazy first-brace replace deletes a same-line prefix before the
first open brace. -/
theorem braceStart_found (p r : List Char)
    (hp : ∀ c ∈ p, c ≠ '\x7b' ∧ jsLineTerminator c = false) :
    braceStart (p ++ '\x7b' :: r) = some ('\x7b' :: r) := by
  induction p with
  | nil => simp [braceStart]
  | cons c p ih =>
    have h1 := (hp c (by simp)).1
    have h2 := (hp c (by simp)).2
    simp only [List.cons_append, braceStart, h1, h2, if_false]
    exact ih (fun x hx => hp x (by simp [hx]))

/-- The close-brace tail replace keeps everything up to the last close
brace and drops a brace-free tail. -/
theorem stripAfterBrace_close (A tail : List Char)
    (ht : ∀ c ∈ tail, c ≠ '\x7d') :
    stripAfterBrace ((A ++ ['\x7d']) ++ tail) = A ++ ['\x7d'] := by
  unfold stripAfterBrace
  have hrev : ((A ++ ['\x7d']) ++ tail).reverse =
      tail.reverse ++ '\x7d' :: A.reverse := by
    simp
  rw [hrev]
  have hnil : tail.reverse.dropWhile (fun c => c ≠ '\x7d') = [] := by
    rw [List.dropWhile_eq_nil_iff]
    intro x hx
    simp [ht x (by simpa using hx)]
  rw [List.dropWhile_append, hnil]
  simp [List.dropWhile_cons]

/-- Claim C6 (amended): the extraction strips the json fence markers,
drops a prefix before the first open brace only when that brace is on
the first line (the lazy dot crosses no ECMAScript line terminator),
truncates after the last close brace, and trims; for a fenced
\x7b"a":1\x7d with line-terminator-free prose on the same line as the
fence opener and any close-brace-free trailing prose, the result is
exactly the span \x7b"a":1\x7d.  Prose on its own line before the JSON
is retained. -/
theorem response_cleaning_same_line (p₁ p₂ : String)
    (h₁ : ∀ c ∈ p₁.data,
      jsLineTerminator c = false ∧ c ≠ '\x60' ∧ c ≠ '\x7b')
    (h₂ : ∀ c ∈ p₂.data, c ≠ '\x7d') :
    cleanedJsonString (p₁ ++ "```json\n\x7b\"a\":1\x7d\n```" ++ p₂) =
      "\x7b\"a\":1\x7d" := by
  unfold cleanedJsonString
  have hdata : (p₁ ++ "```json\n\x7b\"a\":1\x7d\n```" ++ p₂).data =
      p₁.data ++ ("```json\n".data ++ ("\x7b\"a\":1\x7d".data ++
        ("\n```".data ++ p₂.data))) := by
    rw [String.data_append, String.data_append]
    rw [show ("```json\n\x7b\"a\":1\x7d\n```" : String).data =
      "```json\n".data ++ ("\x7b\"a\":1\x7d".data ++ "\n```".data) from rfl]
    simp
  rw [hdata]
  rw [stripFenceOpen_skip _ _ (fun c hc => ((h₁ c hc).2).1),
    stripFenceOpen_fence]
  have hB : 3 ≤ ("\n```".data ++ p₂.data).length := by
    simp
  rw [show p₁.data ++ ("\x7b\"a\":1\x7d".data ++ ("\n```".data ++ p₂.data)) =
    (p₁.data ++ "\x7b\"a\":1\x7d".data) ++ ("\n```".data ++ p₂.data) by simp]
  obtain ⟨k, hk⟩ :=
    stripFenceClose_take (p₁.data ++ "\x7b\"a\":1\x7d".data)
      ("\n```".data ++ p₂.data) hB
  rw [hk]
  have htail : ∀ c ∈ ("\n```".data ++ p₂.data).take k, c ≠ '\x7d' := by
    intro c hc
    have hmem := List.take_subset k _ hc
    rcases List.mem_append.mp hmem with hmem | hmem
    · fin_cases hmem <;> decide
    · exact h₂ c hmem
  rw [show (p₁.data ++ "\x7b\"a\":1\x7d".data) ++
      ("\n```".data ++ p₂.data).take k =
    p₁.data ++ ('\x7b' :: ("\"a\":1\x7d".data ++
      ("\n```".data ++ p₂.data).take k)) by simp]
  unfold stripBeforeBrace
  rw [braceStart_found _ _ (fun c hc => ⟨((h₁ c hc).2).2, (h₁ c hc).1⟩)]
  rw [show ('\x7b' :: ("\"a\":1\x7d".data ++
      ("\n```".data ++ p₂.data).take k) : List Char) =
    ("\x7b\"a\":1".data ++ ['\x7d']) ++
      ("\n```".data ++ p₂.data).take k by simp]
  rw [Option.getD_some, stripAfterBrace_close _ _ htail]
  decide

/-- Witness for the amended C6 with concrete same-line prose around the
fenced block. -/
theorem response_cleaning_same_line_witness :
    cleanedJsonString ("Sure! " ++ "```json\n\x7b\"a\":1\x7d\n```" ++ " thanks") =
      "\x7b\"a\":1\x7d" :=
  response_cleaning_same_line "Sure! " " thanks" (by decide) (by decide)

/-- Counterexample to C6 as stated: the fenced block is present with
surrounding prose, but since the prose sits on its own line before the
fence, the extraction keeps it instead of returning the fenced span (the
lazy first-brace pattern cannot cross a newline). -/
theorem response_cleaning_keeps_prior_line :
    cleanedJsonString "Here is the JSON:\n```json\n\x7b\"a\":1\x7d\n```" =
      "Here is the JSON:\n\x7b\"a\":1\x7d" ∧
    "Here is the JSON:\n\x7b\"a\":1\x7d" ≠ "\x7b\"a\":1\x7d" := by
  decide

theorem requireNum_bad (ps : List (String × Json)) (path : List String)
    (key : String) (hb : badNumField ps key = true) :
    requireNum ps path key = ([invalidType (path ++ [key])], none) := by
  unfold badNumField at hb
  cases hl : lookupField ps key with
  | none => simp [requireNum, hl]
  | some j =>
    cases j with
    | num n => rw [hl] at hb; simp at hb
    | null => simp [requireNum, hl]
    | bool b => simp [requireNum, hl]
    | str s => simp [requireNum, hl]
    | arr xs => simp [requireNum, hl]
    | obj fs => simp [requireNum, hl]

theorem requireStr_bad (ps : List (String × Json)) (path : List String)
    (key : String) (hb : badStrField ps key = true) :
    requireStr ps path key = ([invalidType (path ++ [key])], none) := by
  unfold badStrField at hb
  cases hl : lookupField ps key with
  | none => simp [requireStr, hl]
  | some j =>
    cases j with
    | str s => rw [hl] at hb; simp at hb
    | null => simp [requireStr, hl]
    | bool b => simp [requireStr, hl]
    | num n => simp [requireStr, hl]
    | arr xs => simp [requireStr, hl]
    | obj fs => simp [requireStr, hl]

theorem requireNum_shape (ps : List (String × Json)) (path : List String)
    (key : String) :
    (∃ a, requireNum ps path key = ([], some a)) ∨
      requireNum ps path key = ([invalidType (path ++ [key])], none) := by
  cases hl : lookupField ps key with
  | none => exact Or.inr (by simp [requireNum, hl])
  | some j =>
    cases j with
    | num n => exact Or.inl ⟨n, by simp [requireNum, hl]⟩
    | null => exact Or.inr (by simp [requireNum, hl])
    | bool b => exact Or.inr (by simp [requireNum, hl])
    | str s => exact Or.inr (by simp [requireNum, hl])
    | arr xs => exact Or.inr (by simp [requireNum, hl])
    | obj fs => exact Or.inr (by simp [requireNum, hl])

theorem requireStr_shape (ps : List (String × Json)) (path : List String)
    (key : String) :
    (∃ s, requireStr ps path key = ([], some s)) ∨
      requireStr ps path key = ([invalidType (path ++ [key])], none) := by
  cases hl : lookupField ps key with
  | none => exact Or.inr (by simp [requireStr, hl])
  | some j =>
    cases j with
    | str s => exact Or.inl ⟨s, by simp [requireStr, hl]⟩
    | null => exact Or.inr (by simp [requireStr, hl])
    | bool b => exact Or.inr (by simp [requireStr, hl])
    | num n => exact Or.inr (by simp [requireStr, hl])
    | arr xs => exact Or.inr (by simp [requireStr, hl])
    | obj fs => exact Or.inr (by simp [requireStr, hl])

theorem optionalStr_shape (ps : List (String × Json)) (path : List String)
    (key : String) :
    (∃ v, optionalStr ps path key = ([], some v)) ∨
      optionalStr ps path key = ([invalidType (path ++ [key])], none) := by
  cases hl : lookupField ps key with
  | none => exact Or.inl ⟨none, by simp [optionalStr, hl]⟩
  | some j =>
    cases j with
    | str s => exact Or.inl ⟨some s, by simp [optionalStr, hl]⟩
    | null => exact Or.inr (by simp [optionalStr, hl])
    | bool b => exact Or.inr (by simp [optionalStr, hl])
    | num n => exact Or.inr (by simp [optionalStr, hl])
    | arr xs => exact Or.inr (by simp [optionalStr, hl])
    | obj fs => exact Or.inr (by simp [optionalStr, hl])

theorem optionalNum_shape (ps : List (String × Json)) (path : List String)
    (key : String) :
    (∃ v, optionalNum ps path key = ([], some v)) ∨
      optionalNum ps path key = ([invalidType (path ++ [key])], none) := by
  cases hl : lookupField ps key with
  | none => exact Or.inl ⟨none, by simp [optionalNum, hl]⟩
  | some j =>
    cases j with
    | num n => exact Or.inl ⟨some n, by simp [optionalNum, hl]⟩
    | null => exact Or.inr (by simp [optionalNum, hl])
    | bool b => exact Or.inr (by simp [optionalNum, hl])
    | str s => exact Or.inr (by simp [optionalNum, hl])
    | arr xs => exact Or.inr (by simp [optionalNum, hl])
    | obj fs => exact Or.inr (by simp [optionalNum, hl])

theorem optionalStr_ok (ps : List (String × Json)) (path : List String)
    (key : String) (hb : badOptStrField ps key = false) :
    ∃ v, optionalStr ps path key = ([], some v) := by
  unfold badOptStrField at hb
  cases hl : lookupField ps key with
  | none => exact ⟨none, by simp [optionalStr, hl]⟩
  | some j =>
    cases j with
    | str s => exact ⟨some s, by simp [optionalStr, hl]⟩
    | null => rw [hl] at hb; simp at hb
    | bool b => rw [hl] at hb; simp at hb
    | num n => rw [hl] at hb; simp at hb
    | arr xs => rw [hl] at hb; simp at hb
    | obj fs => rw [hl] at hb; simp at hb

theorem optionalNum_bad (ps : List (String × Json)) (path : List String)
    (key : String) (hb : badOptNumField ps key = true) :
    optionalNum ps path key = ([invalidType (path ++ [key])], none) := by
  unfold badOptNumField at hb
  cases hl : lookupField ps key with
  | none => rw [hl] at hb; simp at hb
  | some j =>
    cases j with
    | num n => rw [hl] at hb; simp at hb
    | null => simp [optionalNum, hl]
    | bool b => simp [optionalNum, hl]
    | str s => simp [optionalNum, hl]
    | arr xs => simp [optionalNum, hl]
    | obj fs => simp [optionalNum, hl]

theorem requirePeriod_bad (ps : List (String × Json))
    (hb : badPeriodField ps = true) :
    ∃ i, requirePeriod ps = ([i], none) ∧ i.path = ["parameters", "period"] := by
  unfold badPeriodField at hb
  cases hl : lookupField ps "period" with
  | none =>
    exact ⟨invalidType ["parameters", "period"], by simp [requirePeriod, hl], rfl⟩
  | some j =>
    cases j with
    | str s =>
      rw [hl] at hb
      by_cases h1 : s = "today"
      · subst h1; simp at hb
      · by_cases h2 : s = "this week"
        · subst h2; simp at hb
        · by_cases h3 : s = "this month"
          · subst h3; simp at hb
          · by_cases h4 : s = "all"
            · subst h4; simp at hb
            · exact ⟨⟨"invalid_enum_value", ["parameters", "period"]⟩,
                by simp [requirePeriod, hl, h1, h2, h3, h4], rfl⟩
    | null =>
      exact ⟨invalidType ["parameters", "period"], by simp [requirePeriod, hl], rfl⟩
    | bool b =>
      exact ⟨invalidType ["parameters", "period"], by simp [requirePeriod, hl], rfl⟩
    | num n =>
      exact ⟨invalidType ["parameters", "period"], by simp [requirePeriod, hl], rfl⟩
    | arr xs =>
      exact ⟨invalidType ["parameters", "period"], by simp [requirePeriod, hl], rfl⟩
    | obj fs =>
      exact ⟨invalidType ["parameters", "period"], by simp [requirePeriod, hl], rfl⟩

theorem parseAddExpense_eq (ps : List (String × Json)) :
    zodParse (mkCand "addExpense" (Json.obj ps)) =
      match (requireNum ps ["parameters"] "amount").1 ++
            (requireStr ps ["parameters"] "category").1 ++
            (optionalStr ps ["parameters"] "note").1,
            (requireNum ps ["parameters"] "amount").2,
            (requireStr ps ["parameters"] "category").2,
            (optionalStr ps ["parameters"] "note").2 with
      | [], some a, some c, some n => Except.ok (ToolCall.addExpense a c n)
      | issues, _, _, _ => Except.error issues := rfl

theorem parseGetSpendingHistory_eq (ps : List (String × Json)) :
    zodParse (mkCand "getSpendingHistory" (Json.obj ps)) =
      match requirePeriod ps with
      | ([], some p) => Except.ok (ToolCall.getSpendingHistory p)
      | (issues, _) => Except.error issues := rfl

theorem parseListExpenses_eq (ps : List (String × Json)) :
    zodParse (mkCand "listExpenses" (Json.obj ps)) =
      match requireStr ps ["parameters"] "query" with
      | ([], some q) => Except.ok (ToolCall.listExpenses q)
      | (issues, _) => Except.error issues := rfl

theorem parseDeleteExpenseById_eq (ps : List (String × Json)) :
    zodParse (mkCand "deleteExpenseById" (Json.obj ps)) =
      match requireStr ps ["parameters"] "id" with
      | ([], some id) => Except.ok (ToolCall.deleteExpenseById id)
      | (issues, _) => Except.error issues := rfl

theorem parseAnswerUser_eq (ps : List (String × Json)) :
    zodParse (mkCand "answerUser" (Json.obj ps)) =
      match requireStr ps ["parameters"] "answer" with
      | ([], some a) => Except.ok (ToolCall.answerUser a)
      | (issues, _) => Except.error issues := rfl

theorem parseClarify_eq (ps : List (String × Json)) :
    zodParse (mkCand "clarify" (Json.obj ps)) =
      match requireStr ps ["parameters"] "question" with
      | ([], some q) => Except.ok (ToolCall.clarify q)
      | (issues, _) => Except.error issues := rfl

theorem parseUpdateExpense_eq (ps us : List (String × Json))
    (hu : lookupField ps "updates" = some (Json.obj us)) :
    zodParse (mkCand "updateExpense" (Json.obj ps)) =
      match (requireStr ps ["parameters"] "id").1 ++
            (optionalNum us ["parameters", "updates"] "amount").1 ++
            (optionalStr us ["parameters", "updates"] "category").1 ++
            (optionalStr us ["parameters", "updates"] "note").1,
            (requireStr ps ["parameters"] "id").2,
            (optionalNum us ["parameters", "updates"] "amount").2,
            (optionalStr us ["parameters", "updates"] "category").2,
            (optionalStr us ["parameters", "updates"] "note").2 with
      | [], some id, some a, some c, some n =>
        Except.ok (ToolCall.updateExpense id a c n)
      | issues, _, _, _, _ => Except.error issues := by
  rw [show zodParse (mkCand "updateExpense" (Json.obj ps)) =
    parseUpdateExpense [("tool_name", Json.str "updateExpense"),
      ("parameters", Json.obj ps)] from rfl]
  unfold parseUpdateExpense
  rw [show lookupField [("tool_name", Json.str "updateExpense"),
    ("parameters", Json.obj ps)] "parameters" = some (Json.obj ps) from rfl]
  dsimp only
  rw [hu]

/-- Claim C7: the validator distinguishes failure causes.  A candidate
whose tool_name is not one of the eight registered names fails with
exactly the unknown-discriminator issue at path tool_name (never a
generic parse error, which in this embedding is a JSON.parse failure
upstream of validation).  A candidate with a known tool_name but a
missing required parameter or a wrongly-typed parameter fails with an
invalid_type (or invalid_enum_value) issue whose path names that field,
and every mismatched field contributes its own issue, not only the
first. -/
theorem validation_error_reporting :
    (∀ fields n, lookupField fields "tool_name" = some (Json.str n) →
        toolNames.contains n = false →
        zodParse (Json.obj fields) = Except.error [unknownToolIssue]) ∧
    (∀ ps,
      (badNumField ps "amount" = true →
        issueMem (zodParse (mkCand "addExpense" (Json.obj ps)))
          (invalidType ["parameters", "amount"])) ∧
      (badStrField ps "category" = true →
        issueMem (zodParse (mkCand "addExpense" (Json.obj ps)))
          (invalidType ["parameters", "category"])) ∧
      (badNumField ps "amount" = true → badStrField ps "category" = true →
        badOptStrField ps "note" = false →
        zodParse (mkCand "addExpense" (Json.obj ps)) =
          Except.error [invalidType ["parameters", "amount"],
            invalidType ["parameters", "category"]])) ∧
    (∀ ps, badStrField ps "query" = true →
        issueMem (zodParse (mkCand "listExpenses" (Json.obj ps)))
          (invalidType ["parameters", "query"])) ∧
    (∀ ps, badStrField ps "id" = true →
        issueMem (zodParse (mkCand "deleteExpenseById" (Json.obj ps)))
          (invalidType ["parameters", "id"])) ∧
    (∀ ps, badStrField ps "answer" = true →
        issueMem (zodParse (mkCand "answerUser" (Json.obj ps)))
          (invalidType ["parameters", "answer"])) ∧
    (∀ ps, badStrField ps "question" = true →
        issueMem (zodParse (mkCand "clarify" (Json.obj ps)))
          (invalidType ["parameters", "question"])) ∧
    (∀ ps, badPeriodField ps = true →
        ∃ issues, zodParse (mkCand "getSpendingHistory" (Json.obj ps)) =
          Except.error issues ∧ issues ≠ [] ∧
          ∀ i ∈ issues, i.path = ["parameters", "period"]) ∧
    (∀ ps us, lookupField ps "updates" = some (Json.obj us) →
      (badStrField ps "id" = true →
        issueMem (zodParse (mkCand "updateExpense" (Json.obj ps)))
          (invalidType ["parameters", "id"])) ∧
      (badOptNumField us "amount" = true →
        issueMem (zodParse (mkCand "updateExpense" (Json.obj ps)))
          (invalidType ["parameters", "updates", "amount"]))) := by
  refine ⟨?_, ?_, ?_, ?_, ?_, ?_, ?_, ?_⟩
  · intro fields n hlook hn
    have h1 : n ≠ "addExpense" := by
      intro e; subst e; exact absurd hn (by decide)
    have h2 : n ≠ "getSpendingHistory" := by
      intro e; subst e; exact absurd hn (by decide)
    have h3 : n ≠ "listExpenses" := by
      intro e; subst e; exact absurd hn (by decide)
    have h4 : n ≠ "updateExpense" := by
      intro e; subst e; exact absurd hn (by decide)
    have h5 : n ≠ "deleteExpenseById" := by
      intro e; subst e; exact absurd hn (by decide)
    have h6 : n ≠ "deleteLastExpense" := by
      intro e; subst e; exact absurd hn (by decide)
    have h7 : n ≠ "answerUser" := by
      intro e; subst e; exact absurd hn (by decide)
    have h8 : n ≠ "clarify" := by
      intro e; subst e; exact absurd hn (by decide)
    unfold zodParse
    dsimp only
    rw [hlook]
    split
    all_goals simp_all
  · intro ps
    refine ⟨?_, ?_, ?_⟩
    · intro hb
      rw [parseAddExpense_eq, requireNum_bad ps _ _ hb]
      rcases requireStr_shape ps ["parameters"] "category" with ⟨v, hv⟩ | hv <;>
        rcases optionalStr_shape ps ["parameters"] "note" with ⟨w, hw⟩ | hw <;>
        simp [hv, hw, issueMem]
    · intro hb
      rw [parseAddExpense_eq, requireStr_bad ps _ _ hb]
      rcases requireNum_shape ps ["parameters"] "amount" with ⟨v, hv⟩ | hv <;>
        rcases optionalStr_shape ps ["parameters"] "note" with ⟨w, hw⟩ | hw <;>
        simp [hv, hw, issueMem]
    · intro hb hc hn
      obtain ⟨w, hw⟩ := optionalStr_ok ps ["parameters"] "note" hn
      rw [parseAddExpense_eq, requireNum_bad ps _ _ hb,
        requireStr_bad ps _ _ hc, hw]
      rfl
  · intro ps hb
    rw [parseListExpenses_eq, requireStr_bad ps _ _ hb]
    simp [issueMem]
  · intro ps hb
    rw [parseDeleteExpenseById_eq, requireStr_bad ps _ _ hb]
    simp [issueMem]
  · intro ps hb
    rw [parseAnswerUser_eq, requireStr_bad ps _ _ hb]
    simp [issueMem]
  · intro ps hb
    rw [parseClarify_eq, requireStr_bad ps _ _ hb]
    simp [issueMem]
  · intro ps hb
    obtain ⟨i, hi, hpath⟩ := requirePeriod_bad ps hb
    rw [parseGetSpendingHistory_eq, hi]
    exact ⟨[i], rfl, by simp, by simpa using hpath⟩
  · intro ps us hu
    constructor
    · intro hb
      rw [parseUpdateExpense_eq ps us hu, requireStr_bad ps _ _ hb]
      rcases optionalNum_shape us ["parameters", "updates"] "amount" with
          ⟨a, ha⟩ | ha <;>
        rcases optionalStr_shape us ["parameters", "updates"] "category" with
          ⟨c, hc⟩ | hc <;>
        rcases optionalStr_shape us ["parameters", "updates"] "note" with
          ⟨w, hw⟩ | hw <;>
        simp [ha, hc, hw, issueMem]
    · intro hb
      rw [parseUpdateExpense_eq ps us hu, optionalNum_bad us _ _ hb]
      rcases requireStr_shape ps ["parameters"] "id" with ⟨v, hv⟩ | hv <;>
        rcases optionalStr_shape us ["parameters", "updates"] "category" with
          ⟨c, hc⟩ | hc <;>
        rcases optionalStr_shape us ["parameters", "updates"] "note" with
          ⟨w, hw⟩ | hw <;>
        simp [hv, hc, hw, issueMem]

/-- Witness for C7: an unknown tool fails with the discriminator issue;
a known tool with two wrongly-typed fields reports both fields. -/
theorem validation_error_reporting_witness :
    zodParse (Json.obj [("tool_name", Json.str "flyToMoon")]) =
      Except.error [unknownToolIssue] ∧
    issueMem (zodParse (mkCand "addExpense"
        (Json.obj [("amount", Json.str "x"), ("category", Json.num 3)])))
      (invalidType ["parameters", "amount"]) ∧
    zodParse (mkCand "addExpense"
        (Json.obj [("amount", Json.str "x"), ("category", Json.num 3)])) =
      Except.error [invalidType ["parameters", "amount"],
        invalidType ["parameters", "category"]] :=
  ⟨validation_error_reporting.1 [("tool_name", Json.str "flyToMoon")]
      "flyToMoon" rfl (by decide),
    (validation_error_reporting.2.1
      [("amount", Json.str "x"), ("category", Json.num 3)]).1 (by decide),
    ((validation_error_reporting.2.1
      [("amount", Json.str "x"), ("category", Json.num 3)]).2.2 (by decide)
      (by decide) (by decide))⟩

/-! ## Lossless rendering: decoding machinery

To prove that the prompt builder renders model-decision turns
losslessly, a decoder is built for the JSON.stringify rendering and
shown to be a left inverse on every tool call. -/

theorem str_data_ext (a b : String) (h : a.data = b.data) : a = b := by
  cases a
  cases b
  exact congrArg String.mk h

theorem hexVal_digitChar : ∀ k, k < 16 → hexVal (Nat.digitChar k) = k := by
  decide

/-- Splitting a concatenation at the first character failing the
predicate. -/
theorem takeWhile_dropWhile_append (p : Char → Bool) (xs r : List Char)
    (hx : ∀ a ∈ xs, p a = true)
    (hr : ∀ c, r.head? = some c → p c = false) :
    (xs ++ r).takeWhile p = xs ∧ (xs ++ r).dropWhile p = r := by
  induction xs with
  | nil =>
    cases r with
    | nil => simp
    | cons c t =>
      have := hr c rfl
      simp [List.takeWhile_cons, List.dropWhile_cons, this]
  | cons a xs ih =>
    have ha := hx a (by simp)
    have ⟨h1, h2⟩ := ih (fun b hb => hx b (by simp [hb]))
    simp [List.takeWhile_cons, List.dropWhile_cons, ha, h1, h2]

theorem dropPre_append (l r : List Char) : dropPre l (l ++ r) = some r := by
  induction l with
  | nil => rfl
  | cons c l ih => simp [dropPre, ih]

theorem natDigits_ne_nil (n : Nat) : natDigits n ≠ [] := by
  unfold natDigits
  by_cases h : n < 10 <;> simp [h]

theorem digitChar_isDigit : ∀ k, k < 10 → (Nat.digitChar k).isDigit = true := by
  decide

theorem natDigits_isDigit (n : Nat) : ∀ c ∈ natDigits n, c.isDigit = true := by
  induction n using Nat.strong_induction_on with
  | _ n ih =>
    intro c hc
    unfold natDigits at hc
    by_cases h : n < 10
    · simp [h] at hc
      subst hc
      exact digitChar_isDigit n h
    · simp [h] at hc
      rcases hc with hc | hc
      · exact ih (n / 10) (Nat.div_lt_self (by omega) (by omega)) c hc
      · subst hc
        exact digitChar_isDigit (n % 10) (Nat.mod_lt _ (by omega))

theorem natDigits_cons (n : Nat) :
    ∃ d ds, natDigits n = d :: ds ∧ d.isDigit = true := by
  cases hd : natDigits n with
  | nil => exact absurd hd (natDigits_ne_nil n)
  | cons d ds =>
    refine ⟨d, ds, rfl, ?_⟩
    exact natDigits_isDigit n d (by simp [hd])

theorem digitsVal_append (A : List Char) (d : Char) :
    digitsVal (A ++ [d]) = digitsVal A * 10 + (d.toNat - 48) := by
  unfold digitsVal
  rw [List.foldl_append]
  rfl

theorem digitChar_val : ∀ k, k < 10 → (Nat.digitChar k).toNat - 48 = k := by
  decide

theorem digitsVal_natDigits (n : Nat) : digitsVal (natDigits n) = n := by
  induction n using Nat.strong_induction_on with
  | _ n ih =>
    unfold natDigits
    by_cases h : n < 10
    · simp [h]
      unfold digitsVal
      simp [List.foldl_cons, digitChar_val n h]
    · simp [h]
      rw [digitsVal_append, ih (n / 10) (Nat.div_lt_self (by omega) (by omega)),
        digitChar_val (n % 10) (Nat.mod_lt _ (by omega))]
      omega

theorem parseDigits_round (n : Nat) (rest : List Char)
    (hr : ∀ c, rest.head? = some c → c.isDigit = false) :
    parseDigits (natDigits n ++ rest) = some (n, rest) := by
  obtain ⟨htake, hdrop⟩ :=
    takeWhile_dropWhile_append Char.isDigit (natDigits n) rest
      (natDigits_isDigit n) hr
  unfold parseDigits
  rw [htake, hdrop]
  obtain ⟨d, ds, hds, hdig⟩ := natDigits_cons n
  rw [hds]
  dsimp only
  rw [← hds, digitsVal_natDigits]

theorem parseInt_not_neg (d : Char) (t : List Char) (hd : d ≠ '-') :
    parseInt (d :: t) = (parseDigits (d :: t)).map fun p => ((p.1 : Int), p.2) := by
  unfold parseInt
  split
  · next r heq =>
    injection heq with h1 _
    exact absurd h1 hd
  · rfl

theorem parseInt_round (i : Int) (rest : List Char)
    (hr : ∀ c, rest.head? = some c → c.isDigit = false) :
    parseInt ((intRepr i).data ++ rest) = some (i, rest) := by
  unfold intRepr
  by_cases hneg : i < 0
  · simp only [hneg, if_true, ite_true]
    have hdata : (String.mk ('-' :: natDigits i.natAbs)).data ++ rest =
        '-' :: (natDigits i.natAbs ++ rest) := by simp
    rw [hdata]
    have : parseInt ('-' :: (natDigits i.natAbs ++ rest)) =
        (parseDigits (natDigits i.natAbs ++ rest)).map
          fun p => (-(p.1 : Int), p.2) := rfl
    rw [this, parseDigits_round i.natAbs rest hr]
    have habs : -((i.natAbs : Nat) : Int) = i := by omega
    rw [show Option.map (fun p => (-(p.1 : Int), p.2))
      (some (i.natAbs, rest)) = some (-((i.natAbs : Nat) : Int), rest) from rfl]
    rw [habs]
  · simp only [hneg, if_false, ite_false]
    obtain ⟨d, ds, hds, hdig⟩ := natDigits_cons i.natAbs
    have hd : d ≠ '-' := by
      intro e
      subst e
      simp at hdig
    have hdata : (String.mk (natDigits i.natAbs)).data ++ rest =
        d :: (ds ++ rest) := by simp [hds]
    rw [hdata, parseInt_not_neg d _ hd,
      show d :: (ds ++ rest) = natDigits i.natAbs ++ rest by simp [hds],
      parseDigits_round i.natAbs rest hr]
    have habs : ((i.natAbs : Nat) : Int) = i := by omega
    rw [show Option.map (fun p => ((p.1 : Int), p.2))
      (some (i.natAbs, rest)) = some (((i.natAbs : Nat) : Int), rest) from rfl]
    rw [habs]

theorem parseEsc_quote (r : List Char) : parseEsc ('"' :: r) = some ([], r) := by
  conv_lhs => unfold parseEsc
  simp

theorem parseEsc_esc_quote (r : List Char) :
    parseEsc ('\\' :: '"' :: r) = (parseEsc r).map fun p => ('"' :: p.1, p.2) := by
  conv_lhs => unfold parseEsc
  simp

theorem parseEsc_esc_backslash (r : List Char) :
    parseEsc ('\\' :: '\\' :: r) =
      (parseEsc r).map fun p => ('\\' :: p.1, p.2) := by
  conv_lhs => unfold parseEsc
  simp

theorem parseEsc_esc_n (r : List Char) :
    parseEsc ('\\' :: 'n' :: r) = (parseEsc r).map fun p => ('\n' :: p.1, p.2) := by
  conv_lhs => unfold parseEsc
  simp

theorem parseEsc_esc_r (r : List Char) :
    parseEsc ('\\' :: 'r' :: r) = (parseEsc r).map fun p => ('\r' :: p.1, p.2) := by
  conv_lhs => unfold parseEsc
  simp

theorem parseEsc_esc_t (r : List Char) :
    parseEsc ('\\' :: 't' :: r) = (parseEsc r).map fun p => ('\t' :: p.1, p.2) := by
  conv_lhs => unfold parseEsc
  simp

theorem parseEsc_esc_b (r : List Char) :
    parseEsc ('\\' :: 'b' :: r) =
      (parseEsc r).map fun p => ('\x08' :: p.1, p.2) := by
  conv_lhs => unfold parseEsc
  simp

theorem parseEsc_esc_f (r : List Char) :
    parseEsc ('\\' :: 'f' :: r) =
      (parseEsc r).map fun p => ('\x0c' :: p.1, p.2) := by
  conv_lhs => unfold parseEsc
  simp

theorem parseEsc_esc_u (d2 d3 : Char) (r : List Char) :
    parseEsc ('\\' :: 'u' :: '0' :: '0' :: d2 :: d3 :: r) =
      (parseEsc r).map fun p =>
        (Char.ofNat (hexVal d2 * 16 + hexVal d3) :: p.1, p.2) := by
  conv_lhs => unfold parseEsc
  simp

theorem parseEsc_plain (c : Char) (r : List Char) (h1 : c ≠ '"')
    (h2 : c ≠ '\\') :
    parseEsc (c :: r) = (parseEsc r).map fun p => (c :: p.1, p.2) := by
  conv_lhs => unfold parseEsc
  simp [h1, h2]

theorem parseEsc_round (d rest : List Char) :
    parseEsc (jsonEscape d ++ '"' :: rest) = some (d, rest) := by
  induction d with
  | nil =>
    rw [show jsonEscape [] ++ '"' :: rest = '"' :: rest from rfl]
    exact parseEsc_quote rest
  | cons c d ih =>
    rw [show jsonEscape (c :: d) = jsonEscapeChar c ++ jsonEscape d from rfl]
    unfold jsonEscapeChar
    by_cases h1 : c = '"'
    · subst h1; simp [parseEsc_esc_quote, ih]
    · by_cases h2 : c = '\\'
      · subst h2; simp [h1, parseEsc_esc_backslash, ih]
      · by_cases h3 : c = '\n'
        · subst h3; simp [h1, h2, parseEsc_esc_n, ih]
        · by_cases h4 : c = '\r'
          · subst h4; simp [h1, h2, h3, parseEsc_esc_r, ih]
          · by_cases h5 : c = '\t'
            · subst h5; simp [h1, h2, h3, h4, parseEsc_esc_t, ih]
            · by_cases h6 : c = '\x08'
              · subst h6; simp [h1, h2, h3, h4, h5, parseEsc_esc_b, ih]
              · by_cases h7 : c = '\x0c'
                · subst h7; simp [h1, h2, h3, h4, h5, h6, parseEsc_esc_f, ih]
                · by_cases h8 : c.toNat < 32
                  · simp only [h1, h2, h3, h4, h5, h6, h7, h8, if_true,
                      if_false, ite_false, ite_true]
                    have hv : c.toNat / 16 < 16 := by omega
                    have hw : c.toNat % 16 < 16 := by omega
                    rw [show (['\\', 'u', '0', '0', Nat.digitChar (c.toNat / 16),
                        Nat.digitChar (c.toNat % 16)] ++ jsonEscape d) ++
                        '"' :: rest =
                      '\\' :: 'u' :: '0' :: '0' :: Nat.digitChar (c.toNat / 16) ::
                        Nat.digitChar (c.toNat % 16) ::
                        (jsonEscape d ++ '"' :: rest) by simp]
                    rw [parseEsc_esc_u, ih,
                      hexVal_digitChar _ hv, hexVal_digitChar _ hw,
                      show c.toNat / 16 * 16 + c.toNat % 16 = c.toNat by omega,
                      Char.ofNat_toNat]
                    rfl
                  · simp only [h1, h2, h3, h4, h5, h6, h7, h8, if_false,
                      ite_false]
                    rw [show ([c] ++ jsonEscape d) ++ '"' :: rest =
                      c :: (jsonEscape d ++ '"' :: rest) by simp]
                    rw [parseEsc_plain c _ h1 h2, ih]
                    rfl

theorem qesc_data (s : String) :
    (qesc s).data = '"' :: (jsonEscape s.data ++ ['"']) := by
  simp [qesc]

theorem decodeUpdates_round (ua : Option Int) (uc un : Option String)
    (tail : List Char) :
    decodeUpdates ((updatesJson ua uc un).data ++ tail) =
      some ((ua, uc, un), tail) := by
  rcases ua with _ | a <;> rcases uc with _ | c <;> rcases un with _ | n
  · simp [updatesJson, decodeUpdates, updCat, updNote, updEnd, updCatKey,
      updNoteKey, dropPre, parseEsc_round]
  · simp [updatesJson, decodeUpdates, updCat, updNote, updEnd, updCatKey,
      updNoteKey, dropPre, parseEsc_round]
  · simp [updatesJson, decodeUpdates, updCat, updNote, updEnd, updCatKey,
      updNoteKey, dropPre, parseEsc_round]
  · simp [updatesJson, decodeUpdates, updCat, updNote, updEnd, updCatKey,
      updNoteKey, dropPre, parseEsc_round]
  · simp only [updatesJson, String.data_append, List.append_assoc]
    generalize hR : (intRepr a).data = R
    simp [decodeUpdates, dropPre]
    rw [← hR, parseInt_round a _ (by intro x hx; simp at hx; subst hx; rfl)]
    simp [updCat, updNote, updEnd, updCatKey, updNoteKey, dropPre]
  · simp only [updatesJson, String.data_append, qesc_data, List.append_assoc]
    generalize hR : (intRepr a).data = R
    simp [decodeUpdates, dropPre]
    rw [← hR, parseInt_round a _ (by intro x hx; simp at hx; subst hx; rfl)]
    simp [updCat, updNote, updEnd, updCatKey, updNoteKey, dropPre,
      parseEsc_round]
  · simp only [updatesJson, String.data_append, qesc_data, List.append_assoc]
    generalize hR : (intRepr a).data = R
    simp [decodeUpdates, dropPre]
    rw [← hR, parseInt_round a _ (by intro x hx; simp at hx; subst hx; rfl)]
    simp [updCat, updNote, updEnd, updCatKey, updNoteKey, dropPre,
      parseEsc_round]
  · simp only [updatesJson, String.data_append, qesc_data, List.append_assoc]
    generalize hR : (intRepr a).data = R
    simp [decodeUpdates, dropPre]
    rw [← hR, parseInt_round a _ (by intro x hx; simp at hx; subst hx; rfl)]
    simp [updCat, updNote, updEnd, updCatKey, updNoteKey, dropPre,
      parseEsc_round]

/-- The decoder is a left inverse of the JSON.stringify rendering: no
two distinct tool calls render alike, and the rendering loses nothing. -/
theorem decodeTC_stringify (c : ToolCall) :
    decodeTC (stringifyToolCall c).data = some c := by
  cases c with
  | clarify q =>
    have hdata : (stringifyToolCall (ToolCall.clarify q)).data =
        "\x7b\n  \"tool_name\": \"clarify\",\n  \"parameters\": \x7b\n    \"question\": \"".data ++
        (jsonEscape q.data ++ ('"' :: "\n  \x7d\n\x7d".data)) := by
      simp [stringifyToolCall, qesc, paramsJson, ToolCall.name, jsonEscape,
        jsonEscapeChar]
    rw [hdata]
    simp [decodeTC, dropPre, parseEsc_round]
  | answerUser ans =>
    have hdata : (stringifyToolCall (ToolCall.answerUser ans)).data =
        "\x7b\n  \"tool_name\": \"answerUser\",\n  \"parameters\": \x7b\n    \"answer\": \"".data ++
        (jsonEscape ans.data ++ ('"' :: "\n  \x7d\n\x7d".data)) := by
      simp [stringifyToolCall, qesc, paramsJson, ToolCall.name, jsonEscape,
        jsonEscapeChar]
    rw [hdata]
    simp [decodeTC, dropPre, parseEsc_round]
  | listExpenses q =>
    have hdata : (stringifyToolCall (ToolCall.listExpenses q)).data =
        "\x7b\n  \"tool_name\": \"listExpenses\",\n  \"parameters\": \x7b\n    \"query\": \"".data ++
        (jsonEscape q.data ++ ('"' :: "\n  \x7d\n\x7d".data)) := by
      simp [stringifyToolCall, qesc, paramsJson, ToolCall.name, jsonEscape,
        jsonEscapeChar]
    rw [hdata]
    simp [decodeTC, dropPre, parseEsc_round]
  | deleteExpenseById id =>
    have hdata : (stringifyToolCall (ToolCall.deleteExpenseById id)).data =
        "\x7b\n  \"tool_name\": \"deleteExpenseById\",\n  \"parameters\": \x7b\n    \"id\": \"".data ++
        (jsonEscape id.data ++ ('"' :: "\n  \x7d\n\x7d".data)) := by
      simp [stringifyToolCall, qesc, paramsJson, ToolCall.name, jsonEscape,
        jsonEscapeChar]
    rw [hdata]
    simp [decodeTC, dropPre, parseEsc_round]
  | deleteLastExpense =>
    have hdata : (stringifyToolCall ToolCall.deleteLastExpense).data =
        "\x7b\n  \"tool_name\": \"deleteLastExpense\",\n  \"parameters\": \x7b\x7d\n\x7d".data := by
      simp [stringifyToolCall, qesc, paramsJson, ToolCall.name, jsonEscape,
        jsonEscapeChar]
    rw [hdata]
    simp [decodeTC, dropPre]
  | getSpendingHistory p =>
    cases p with
    | today =>
      have hdata : (stringifyToolCall
          (ToolCall.getSpendingHistory Period.today)).data =
          "\x7b\n  \"tool_name\": \"getSpendingHistory\",\n  \"parameters\": \x7b\n    \"period\": \"today\"\n  \x7d\n\x7d".data := by
        simp [stringifyToolCall, qesc, paramsJson, ToolCall.name,
          Period.jsString, jsonEscape, jsonEscapeChar]
      rw [hdata]
      simp [decodeTC, dropPre]
    | thisWeek =>
      have hdata : (stringifyToolCall
          (ToolCall.getSpendingHistory Period.thisWeek)).data =
          "\x7b\n  \"tool_name\": \"getSpendingHistory\",\n  \"parameters\": \x7b\n    \"period\": \"this week\"\n  \x7d\n\x7d".data := by
        simp [stringifyToolCall, qesc, paramsJson, ToolCall.name,
          Period.jsString, jsonEscape, jsonEscapeChar]
      rw [hdata]
      simp [decodeTC, dropPre]
    | thisMonth =>
      have hdata : (stringifyToolCall
          (ToolCall.getSpendingHistory Period.thisMonth)).data =
          "\x7b\n  \"tool_name\": \"getSpendingHistory\",\n  \"parameters\": \x7b\n    \"period\": \"this month\"\n  \x7d\n\x7d".data := by
        simp [stringifyToolCall, qesc, paramsJson, ToolCall.name,
          Period.jsString, jsonEscape, jsonEscapeChar]
      rw [hdata]
      simp [decodeTC, dropPre]
    | all =>
      have hdata : (stringifyToolCall
          (ToolCall.getSpendingHistory Period.all)).data =
          "\x7b\n  \"tool_name\": \"getSpendingHistory\",\n  \"parameters\": \x7b\n    \"period\": \"all\"\n  \x7d\n\x7d".data := by
        simp [stringifyToolCall, qesc, paramsJson, ToolCall.name,
          Period.jsString, jsonEscape, jsonEscapeChar]
      rw [hdata]
      simp [decodeTC, dropPre]
  | addExpense a cat note =>
    cases note with
    | none =>
      have hdata : (stringifyToolCall (ToolCall.addExpense a cat none)).data =
          "\x7b\n  \"tool_name\": \"addExpense\",\n  \"parameters\": \x7b\n    \"amount\": ".data ++
          ((intRepr a).data ++ (',' :: "\n    \"category\": \"".data ++
            (jsonEscape cat.data ++ ('"' :: "\n  \x7d\n\x7d".data)))) := by
        simp [stringifyToolCall, qesc, paramsJson, ToolCall.name, jsonEscape,
          jsonEscapeChar]
      rw [hdata]
      generalize hR : (intRepr a).data = R
      simp [decodeTC, dropPre]
      rw [← hR, parseInt_round a _ (by intro x hx; simp at hx; subst hx; rfl)]
      simp [dropPre, parseEsc_round]
    | some n =>
      have hdata : (stringifyToolCall
          (ToolCall.addExpense a cat (some n))).data =
          "\x7b\n  \"tool_name\": \"addExpense\",\n  \"parameters\": \x7b\n    \"amount\": ".data ++
          ((intRepr a).data ++ (',' :: "\n    \"category\": \"".data ++
            (jsonEscape cat.data ++ ('"' :: (",\n    \"note\": \"".data ++
              (jsonEscape n.data ++ ('"' :: "\n  \x7d\n\x7d".data))))))) := by
        simp [stringifyToolCall, qesc, paramsJson, ToolCall.name, jsonEscape,
          jsonEscapeChar]
      rw [hdata]
      generalize hR : (intRepr a).data = R
      simp [decodeTC, dropPre]
      rw [← hR, parseInt_round a _ (by intro x hx; simp at hx; subst hx; rfl)]
      simp [dropPre, parseEsc_round]
  | updateExpense id ua uc un =>
    have hdata : (stringifyToolCall (ToolCall.updateExpense id ua uc un)).data =
        "\x7b\n  \"tool_name\": \"updateExpense\",\n  \"parameters\": \x7b\n    \"id\": \"".data ++
        (jsonEscape id.data ++ ('"' :: (",\n    \"updates\": ".data ++
          ((updatesJson ua uc un).data ++ "\n  \x7d\n\x7d".data)))) := by
      simp [stringifyToolCall, qesc, paramsJson, ToolCall.name, jsonEscape,
        jsonEscapeChar]
    rw [hdata]
    simp [decodeTC, dropPre, parseEsc_round, decodeUpdates_round]

theorem escQ_cons (x : Char) (xs : List Char) :
    escQ (x :: xs) = escQChar x ++ escQ xs := by
  simp [escQ]

theorem escQ_head_ne (zs t : List Char) : escQ zs ≠ '"' :: t := by
  cases zs with
  | nil => simp [escQ]
  | cons z zs =>
    rw [escQ_cons]
    unfold escQChar
    by_cases h : z = '"'
    · subst h; simp
    · simp [h]

theorem escQ_inj (xs : List Char) : ∀ ys, escQ xs = escQ ys → xs = ys := by
  induction xs with
  | nil =>
    intro ys h
    cases ys with
    | nil => rfl
    | cons y ys =>
      exfalso
      rw [escQ_cons] at h
      unfold escQChar at h
      by_cases hy : y = '"'
      · subst hy; simp [escQ] at h
      · simp [escQ, hy] at h
  | cons x xs ih =>
    intro ys h
    cases ys with
    | nil =>
      exfalso
      rw [escQ_cons] at h
      unfold escQChar at h
      by_cases hx : x = '"'
      · subst hx; simp [escQ] at h
      · simp [escQ, hx] at h
    | cons y ys =>
      rw [escQ_cons, escQ_cons] at h
      unfold escQChar at h
      by_cases hx : x = '"' <;> by_cases hy : y = '"'
      · subst hx; subst hy
        simp at h
        rw [ih ys h]
      · subst hx
        simp [hy] at h
        obtain ⟨hy2, hq⟩ := h
        exact absurd hq.symm (escQ_head_ne ys (escQ xs))
      · subst hy
        simp [hx] at h
        obtain ⟨hx2, hq⟩ := h
        exact absurd hq (escQ_head_ne xs (escQ ys))
      · simp [hx, hy] at h
        obtain ⟨hxy, hq⟩ := h
        rw [hxy, ih ys hq]

/-- The turn formatter of createMasterPrompt is injective on non-system
turns: among user, ai and tool turns the rendered fragment determines the
turn, so role tags distinguish the roles and content is kept losslessly. -/
theorem renderTurn_inj (t₁ t₂ : Turn) (s : String)
    (h₁ : renderTurn t₁ = some s) (h₂ : renderTurn t₂ = some s)
    (hr₁ : t₁.role ≠ Role.system) (hr₂ : t₂.role ≠ Role.system) :
    t₁ = t₂ := by
  cases t₁ with
  | system c₁ => simp [Turn.role] at hr₁
  | user c₁ =>
    cases t₂ with
    | system c₂ => simp [Turn.role] at hr₂
    | user c₂ =>
      have h := Option.some.inj (h₁.trans h₂.symm)
      have hd := congrArg String.data h
      simp [escapeQuotes] at hd
      rw [str_data_ext c₁ c₂ (escQ_inj c₁.data c₂.data hd)]
    | ai c₂ =>
      have h := Option.some.inj (h₁.trans h₂.symm)
      have hd := congrArg String.data h
      simp [escapeQuotes] at hd
    | tool c₂ =>
      have h := Option.some.inj (h₁.trans h₂.symm)
      have hd := congrArg String.data h
      simp [escapeQuotes] at hd
  | ai c₁ =>
    cases t₂ with
    | system c₂ => simp [Turn.role] at hr₂
    | user c₂ =>
      have h := Option.some.inj (h₁.trans h₂.symm)
      have hd := congrArg String.data h
      simp [escapeQuotes] at hd
    | ai c₂ =>
      have h := Option.some.inj (h₁.trans h₂.symm)
      have hd := congrArg String.data h
      simp at hd
      have hdec := congrArg decodeTC hd
      rw [decodeTC_stringify, decodeTC_stringify] at hdec
      rw [Option.some.inj hdec]
    | tool c₂ =>
      have h := Option.some.inj (h₁.trans h₂.symm)
      have hd := congrArg String.data h
      simp [escapeQuotes] at hd
  | tool c₁ =>
    cases t₂ with
    | system c₂ => simp [Turn.role] at hr₂
    | user c₂ =>
      have h := Option.some.inj (h₁.trans h₂.symm)
      have hd := congrArg String.data h
      simp [escapeQuotes] at hd
    | ai c₂ =>
      have h := Option.some.inj (h₁.trans h₂.symm)
      have hd := congrArg String.data h
      simp [escapeQuotes] at hd
    | tool c₂ =>
      have h := Option.some.inj (h₁.trans h₂.symm)
      have hd := congrArg String.data h
      simp [escapeQuotes] at hd
      rw [str_data_ext c₁ c₂ (escQ_inj c₁.data c₂.data hd)]

/-- When the formatter succeeds, the produced fragment list pairs the
turns of the history one-to-one and in insertion order. -/
theorem renderAll_forall2 :
    ∀ (h : List Turn) (parts : List String), renderAll h = some parts →
      List.Forall₂ (fun t p => renderTurn t = some p) h parts := by
  intro h
  induction h with
  | nil =>
    intro parts hp
    simp [renderAll] at hp
    subst hp
    exact List.Forall₂.nil
  | cons t ts ih =>
    intro parts hp
    unfold renderAll at hp
    cases hr : renderTurn t with
    | none => rw [hr] at hp; simp at hp
    | some s =>
      rw [hr] at hp
      cases ha : renderAll ts with
      | none => rw [ha] at hp; simp at hp
      | some rest =>
        rw [ha] at hp
        simp at hp
        subst hp
        exact List.Forall₂.cons hr (ih rest ha)

/-- C8 (amended): createMasterPrompt renders the history in insertion
order with no reordering (each fragment pairs its turn, Forall2), the
role tags and content are lossless across the user, ai and tool roles
(the fragment determines the turn), it splices the joined fragments into
the fixed template, and the empty history still yields a non-empty
prompt.  Losslessness does not extend to system turns: see the
counterexample theorem, a system turn reuses the TOOL_RESULT tag. -/
theorem prompt_renders_ordered_lossless :
    (∀ (h : List Turn) (parts : List String), renderAll h = some parts →
        List.Forall₂ (fun t p => renderTurn t = some p) h parts) ∧
    (∀ (t₁ t₂ : Turn) (s : String), renderTurn t₁ = some s →
        renderTurn t₂ = some s → t₁.role ≠ Role.system →
        t₂.role ≠ Role.system → t₁ = t₂) ∧
    (∀ (h : List Turn) (parts : List String), renderAll h = some parts →
        createMasterPrompt h =
          some (promptHeader ++ String.intercalate "\n\n" parts ++ promptFooter)) ∧
    (∃ p, createMasterPrompt [] = some p ∧ p ≠ "") := by
  refine ⟨renderAll_forall2, renderTurn_inj, ?_, ?_⟩
  · intro h parts hp
    simp [createMasterPrompt, hp]
  · exact ⟨promptHeader ++ String.intercalate "\n\n" [] ++ promptFooter, rfl, by decide⟩

theorem prompt_renders_ordered_lossless_witness :
    List.Forall₂ (fun t p => renderTurn t = some p)
      [Turn.user "hi", Turn.tool "ok"]
      ["User: \"hi\"", "TOOL_RESULT: \"ok\""] ∧
    Turn.user "a" = Turn.user "a" ∧
    createMasterPrompt [Turn.user "hi"] =
      some (promptHeader ++ String.intercalate "\n\n" ["User: \"hi\""] ++ promptFooter) :=
  ⟨prompt_renders_ordered_lossless.1 [Turn.user "hi", Turn.tool "ok"]
      ["User: \"hi\"", "TOOL_RESULT: \"ok\""] (by decide),
   prompt_renders_ordered_lossless.2.1 (Turn.user "a") (Turn.user "a")
      ("User: \"a\"") (by decide) (by decide) (by decide) (by decide),
   prompt_renders_ordered_lossless.2.2.1 [Turn.user "hi"] ["User: \"hi\""]
      (by decide)⟩

/-- Counterexample to lossless role preservation: a system turn with
defined content renders to exactly the same fragment as a tool turn with
the same content, so the rendering does not preserve the role of every
turn. -/
theorem prompt_system_turn_collides_with_tool_turn :
    renderTurn (Turn.system (some "x")) = renderTurn (Turn.tool "x") ∧
    Turn.system (some "x") ≠ Turn.tool "x" := by
  decide
